import Mathlib

/-!
# pylon: response writers (`responsewriter.go`)

A shallow embedding of the two response adapters `GatewayResponseWriter` and
`ALBResponseWriter`, of the process-wide text/binary classifier configured by
`SetTextContentTypes`, and of the library functions they call
(`base64.StdEncoding`, `regexp`, `http.StatusText`).

The function `regexp.Compile` belongs to the library: `SetTextContentTypes`
takes it as a parameter. Where a theorem needs its result on a particular
pattern (the default patterns), the result is that of a parser for a fragment
of the pattern syntax, which leaves every other pattern undecided.

Conventions of the embedding:

* a Go `[]byte`, and a Go `string` that holds a body, is a `List Byte`;
* header names and values, content types and regular-expression patterns are
  Lean `String`s (valid UTF-8 text, decoded into runes as Go's `regexp` does);
* a Go `map[string]V` is an association list with distinct keys (`GoMap V`);
  a `nil` response map is the empty map (reads of both agree);
* a Go `int` status is an `Int`; no arithmetic is done on it;
* the package-level variables are the fields of `Globals`, passed explicitly.
-/

namespace Pylon

/-! ## Bytes -/

/-- One byte of a Go `[]byte` or of a Go `string`. -/
abbrev Byte := Fin 256

/-- The byte with value `n mod 256` (Go's conversion `byte(n)`). -/
def byteOfNat (n : Nat) : Byte := ⟨n % 256, Nat.mod_lt _ (by decide)⟩

/-- The byte of an ASCII character. -/
def byteOfChar (c : Char) : Byte := byteOfNat c.toNat

/-- The bytes of an ASCII string literal. -/
def asciiBytes (s : String) : List Byte := s.toList.map byteOfChar

/-! ## `encoding/base64`, `StdEncoding` (RFC 4648, padded) -/

namespace base64

/-- The alphabet of `base64.StdEncoding`. -/
def encodeStd : String :=
  "ABCDEFGHIJKLMNOPQRSTUVWXYZabcdefghijklmnopqrstuvwxyz0123456789+/"

/-- The padding character `=` of `base64.StdPadding`. -/
def StdPadding : Byte := byteOfChar '='

/-- Output character of the 6-bit value `i` (`enc.encode[i]`). -/
def encChar (i : Nat) : Byte := byteOfChar (encodeStd.toList.getD i 'A')

/-- The 6-bit value of an input character (`enc.decodeMap[b]`), `none` for a
character outside the alphabet. -/
def decChar (b : Byte) : Option Nat :=
  ((List.range 64).find? (fun i => encChar i = b))

/-- `StdEncoding.EncodeToString`: every 3 input bytes give 4 characters; a
remainder of 1 or 2 bytes gives 2 or 3 characters and `=` padding. -/
def EncodeToString : List Byte → List Byte
  | a :: b :: c :: rest =>
      encChar (a.val / 4) :: encChar (a.val % 4 * 16 + b.val / 16) ::
        encChar (b.val % 16 * 4 + c.val / 64) :: encChar (c.val % 64) ::
        EncodeToString rest
  | [a, b] =>
      [encChar (a.val / 4), encChar (a.val % 4 * 16 + b.val / 16),
        encChar (b.val % 16 * 4), StdPadding]
  | [a] => [encChar (a.val / 4), encChar (a.val % 4 * 16), StdPadding, StdPadding]
  | [] => []

/-- Decoding of the quanta of 4 characters; `none` is `CorruptInputError`.
Padding is accepted in the last quantum only. -/
def decodeQuanta : List Byte → Option (List Byte)
  | [] => some []
  | c0 :: c1 :: c2 :: c3 :: rest =>
    match decChar c0, decChar c1, decChar c2, decChar c3 with
    | some s0, some s1, some s2, some s3 =>
        (decodeQuanta rest).map
          (fun out => byteOfNat (s0 * 4 + s1 / 16) :: byteOfNat (s1 * 16 + s2 / 4) ::
            byteOfNat (s2 * 64 + s3) :: out)
    | some s0, some s1, some s2, none =>
        if c3 = StdPadding ∧ rest = [] then
          some [byteOfNat (s0 * 4 + s1 / 16), byteOfNat (s1 * 16 + s2 / 4)]
        else none
    | some s0, some s1, none, none =>
        if c2 = StdPadding ∧ c3 = StdPadding ∧ rest = [] then
          some [byteOfNat (s0 * 4 + s1 / 16)]
        else none
    | _, _, _, _ => none
  | _ => none

/-- `StdEncoding.DecodeString`: carriage returns and line feeds in the input
are skipped, the rest is decoded quantum by quantum. -/
def DecodeString (s : List Byte) : Option (List Byte) :=
  decodeQuanta (s.filter (fun b => b.val ≠ 10 ∧ b.val ≠ 13))

end base64

/-! ## Go maps -/

/-- A Go `map[string]V`: an association list whose keys are distinct. -/
abbrev GoMap (V : Type) := List (String × V)

namespace GoMap

variable {V : Type}

/-- The keys of a Go map are distinct. -/
def WellFormed (m : GoMap V) : Prop := (m.map Prod.fst).Nodup

/-- The two-valued read `v, ok := m[k]`. -/
def get? (m : GoMap V) (k : String) : Option V := List.lookup k m

/-- The assignment `m[k] = v`. -/
def set : GoMap V → String → V → GoMap V
  | [], k, v => [(k, v)]
  | (k', v') :: t, k, v => if k' = k then (k, v) :: t else (k', v') :: set t k v

/-- The built-in `delete(m, k)`. -/
def delete (m : GoMap V) (k : String) : GoMap V := m.filter (fun e => e.1 ≠ k)

end GoMap

/-! ## `regexp`: syntax, matching, compilation

The fragment of Go's RE2 syntax that is modelled: patterns of at most
`maxModelledLength` characters made of literal characters, `.`, `^`, `$`,
`\A`, `\z`, `\b`, `\B`, escaped ASCII punctuation, the control escapes
`\a \f \n \r \t \v`, capturing groups, `|`, and the repetitions `*`, `+`, `?`
with their lazy forms. On every other pattern (`[...]`, `{n,m}`, `(?...)`, class
and numeric escapes, other escapes, longer patterns, where the library has
limits on size and nesting) the parser `compileFragment` answers `none`:
nothing is stated about the library there, and `Compile` takes its result from
a parameter. -/

namespace regexp

/-- The syntax tree of a compiled regular expression (`*regexp.Regexp`). -/
inductive Regexp where
  | emptyMatch
  | literal (c : Char)
  | anyCharNotNL
  | beginText
  | endText
  | wordBoundary
  | noWordBoundary
  | capture (r : Regexp)
  | star (r : Regexp)
  | plus (r : Regexp)
  | quest (r : Regexp)
  | concat (r₁ r₂ : Regexp)
  | alternate (r₁ r₂ : Regexp)
deriving DecidableEq

/-- A position of the matcher in the input: the character just before it
(`none` at the beginning of the text) and the characters still ahead. -/
abbrev Pos := Option Char × List Char

/-- ASCII word characters, as used by `\b` and `\B`: `[0-9A-Za-z_]`. -/
def isWordChar (c : Char) : Bool := c.isAlphanum || c == '_'

/-- Is the optional character a word character (`false` outside the text). -/
def isWordAt : Option Char → Bool
  | some c => isWordChar c
  | none => false

/-- The position lies between a word character and a non-word character. -/
def atWordBoundary (p : Pos) : Bool := isWordAt p.1 != isWordAt p.2.head?

/-- Positions reached from `p` by zero or more iterations of `step`; an
iteration that consumes no input reaches nothing new and is dropped, so the
number of iterations is bounded by the input still ahead. -/
def starEnds (step : Pos → List Pos) : Nat → Pos → List Pos
  | 0, p => [p]
  | fuel + 1, p =>
      p :: ((step p).filter (fun q => q.2.length < p.2.length)).flatMap (starEnds step fuel)

/-- All positions at which a match of the expression that starts at `p` can
end. -/
def ends : Regexp → Pos → List Pos
  | .emptyMatch, p => [p]
  | .literal c, p =>
      match p.2 with
      | x :: xs => if x = c then [(some x, xs)] else []
      | [] => []
  | .anyCharNotNL, p =>
      match p.2 with
      | x :: xs => if x = '\n' then [] else [(some x, xs)]
      | [] => []
  | .beginText, p => if p.1 = none then [p] else []
  | .endText, p => if p.2 = [] then [p] else []
  | .wordBoundary, p => if atWordBoundary p then [p] else []
  | .noWordBoundary, p => if atWordBoundary p then [] else [p]
  | .capture r, p => ends r p
  | .star r, p => starEnds (ends r) p.2.length p
  | .plus r, p => (ends r p).flatMap (fun q => starEnds (ends r) q.2.length q)
  | .quest r, p => p :: ends r p
  | .concat r₁ r₂, p => (ends r₁ p).flatMap (ends r₂)
  | .alternate r₁ r₂, p => ends r₁ p ++ ends r₂ p

/-- Every position of the text at which an unanchored search may start. -/
def startPositions : Option Char → List Char → List Pos
  | prev, [] => [(prev, [])]
  | prev, x :: xs => (prev, x :: xs) :: startPositions (some x) xs

/-- `(*Regexp).MatchString`: the text contains some match of the expression
(the search is not anchored). -/
def MatchString (re : Regexp) (s : String) : Bool :=
  (startPositions none s.toList).any (fun p => !(ends re p).isEmpty)

/-- The codes of `*syntax.Error`, the error returned by `Compile`
(`syntax.ErrInternalError` to `syntax.ErrLarge`). -/
inductive ErrorCode where
  | internalError
  | invalidCharClass
  | invalidCharRange
  | invalidEscape
  | invalidNamedCapture
  | invalidPerlOp
  | invalidRepeatOp
  | invalidRepeatSize
  | invalidUTF8
  | missingBracket
  | missingParen
  | missingRepeatArgument
  | trailingBackslash
  | unexpectedParen
  | nestingDepth
  | large
deriving DecidableEq

/-- One nesting level of the parser: the alternatives already closed by `|`
and the items of the concatenation being read, both most recent first. -/
structure Frame where
  alts : List Regexp
  seq : List Regexp

/-- What the parser read last, for the rule that repetition operators do not
stack. -/
inductive RepeatState where
  | noRepeat
  | repeated
  | lazyRepeated
deriving DecidableEq

/-- State of the parser: the enclosing open groups (innermost first), the
level being read and the repetition state. -/
structure ParseState where
  stack : List Frame
  cur : Frame
  rep : RepeatState

/-- Concatenation of the items `rs`, given most recent first. -/
def mkConcat : List Regexp → Regexp
  | [] => .emptyMatch
  | [r] => r
  | r :: rs => rs.foldl (fun acc x => .concat x acc) r

/-- Alternation of the alternatives `rs`, given most recent first. -/
def mkAlternate : List Regexp → Regexp
  | [] => .emptyMatch
  | [r] => r
  | r :: rs => rs.foldl (fun acc x => .alternate x acc) r

/-- The expression of a finished nesting level. -/
def closeFrame (f : Frame) : Regexp := mkAlternate (mkConcat f.seq :: f.alts)

/-- The atom denoted by the escape `\c`, `none` for an escape outside the
modelled fragment. -/
def escapeAtom (c : Char) : Option Regexp :=
  if c = 'b' then some .wordBoundary
  else if c = 'B' then some .noWordBoundary
  else if c = 'A' then some .beginText
  else if c = 'z' then some .endText
  else if c = 'a' then some (.literal (Char.ofNat 7))
  else if c = 'f' then some (.literal (Char.ofNat 12))
  else if c = 'n' then some (.literal '\n')
  else if c = 'r' then some (.literal '\r')
  else if c = 't' then some (.literal '\t')
  else if c = 'v' then some (.literal (Char.ofNat 11))
  else if c.toNat < 128 ∧ ¬ c.isAlphanum then some (.literal c)
  else none

/-- Appends an atom to the concatenation being read. -/
def pushAtom (st : ParseState) (a : Regexp) : ParseState :=
  { st with cur := { st.cur with seq := a :: st.cur.seq }, rep := .noRepeat }

/-- Applies a repetition operator to the last item read. -/
def applyRepeat (st : ParseState) (op : Regexp → Regexp) : Except ErrorCode ParseState :=
  match st.rep with
  | .noRepeat =>
      match st.cur.seq with
      | [] => .error .missingRepeatArgument
      | a :: rest => .ok { st with cur := { st.cur with seq := op a :: rest }, rep := .repeated }
  | _ => .error .invalidRepeatOp

/-- The parser of the fragment: one step per pattern character (two for an
escape). The answer is `none` when the pattern leaves the fragment, and
otherwise the syntax tree or the error code of `Compile`. -/
def parseLoop : List Char → ParseState → Option (Except ErrorCode Regexp)
  | [], st =>
      match st.stack with
      | [] => some (.ok (closeFrame st.cur))
      | _ :: _ => some (.error .missingParen)
  | c :: t, st =>
      if c = '\\' then
        match t with
        | [] => some (.error .trailingBackslash)
        | e :: t' =>
            match escapeAtom e with
            | some a => parseLoop t' (pushAtom st a)
            | none => none
      else if c = '(' then
        match t with
        | '?' :: _ => none
        | _ => parseLoop t { stack := st.cur :: st.stack, cur := ⟨[], []⟩, rep := .noRepeat }
      else if c = ')' then
        match st.stack with
        | [] => some (.error .unexpectedParen)
        | f :: fs =>
            parseLoop t
              { stack := fs, cur := { f with seq := .capture (closeFrame st.cur) :: f.seq },
                rep := .noRepeat }
      else if c = '|' then
        parseLoop t
          { st with cur := ⟨mkConcat st.cur.seq :: st.cur.alts, []⟩, rep := .noRepeat }
      else if c = '*' then
        match applyRepeat st .star with
        | .ok st' => parseLoop t st'
        | .error err => some (.error err)
      else if c = '+' then
        match applyRepeat st .plus with
        | .ok st' => parseLoop t st'
        | .error err => some (.error err)
      else if c = '?' then
        if st.rep = .repeated then parseLoop t { st with rep := .lazyRepeated }
        else
          match applyRepeat st .quest with
          | .ok st' => parseLoop t st'
          | .error err => some (.error err)
      else if c = '.' then parseLoop t (pushAtom st .anyCharNotNL)
      else if c = '^' then parseLoop t (pushAtom st .beginText)
      else if c = '$' then parseLoop t (pushAtom st .endText)
      else if c = '[' ∨ c = '{' then none
      else parseLoop t (pushAtom st (.literal c))

/-- The longest pattern of the modelled fragment, in characters; it keeps the
fragment clear of the library's limits on the size and the nesting depth of an
expression. -/
def maxModelledLength : Nat := 200

/-- The result of `regexp.Compile` on a pattern of the modelled fragment, and
`none` on any other pattern. -/
def compileFragment (expr : String) : Option (Except ErrorCode Regexp) :=
  if expr.length ≤ maxModelledLength then parseLoop expr.toList ⟨[], ⟨[], []⟩, .noRepeat⟩
  else none

/-- `regexp.Compile`, a library function: on the modelled fragment its result
is `compileFragment`; its results on all other patterns are the parameter
`outside`, about which nothing is assumed. -/
def Compile (outside : String → Except ErrorCode Regexp) (expr : String) :
    Except ErrorCode Regexp :=
  match compileFragment expr with
  | some res => res
  | none => outside expr

end regexp

deriving instance DecidableEq for Except

/-! ## `net/http` -/

namespace http

/-- The constant `http.StatusOK`. -/
def StatusOK : Int := 200

/-- `http.StatusText`: the reason phrase of a status code, the empty string
for an unknown code. -/
def StatusText (code : Int) : String :=
  if code = 100 then "Continue"
  else if code = 101 then "Switching Protocols"
  else if code = 102 then "Processing"
  else if code = 103 then "Early Hints"
  else if code = 200 then "OK"
  else if code = 201 then "Created"
  else if code = 202 then "Accepted"
  else if code = 203 then "Non-Authoritative Information"
  else if code = 204 then "No Content"
  else if code = 205 then "Reset Content"
  else if code = 206 then "Partial Content"
  else if code = 207 then "Multi-Status"
  else if code = 208 then "Already Reported"
  else if code = 226 then "IM Used"
  else if code = 300 then "Multiple Choices"
  else if code = 301 then "Moved Permanently"
  else if code = 302 then "Found"
  else if code = 303 then "See Other"
  else if code = 304 then "Not Modified"
  else if code = 305 then "Use Proxy"
  else if code = 307 then "Temporary Redirect"
  else if code = 308 then "Permanent Redirect"
  else if code = 400 then "Bad Request"
  else if code = 401 then "Unauthorized"
  else if code = 402 then "Payment Required"
  else if code = 403 then "Forbidden"
  else if code = 404 then "Not Found"
  else if code = 405 then "Method Not Allowed"
  else if code = 406 then "Not Acceptable"
  else if code = 407 then "Proxy Authentication Required"
  else if code = 408 then "Request Timeout"
  else if code = 409 then "Conflict"
  else if code = 410 then "Gone"
  else if code = 411 then "Length Required"
  else if code = 412 then "Precondition Failed"
  else if code = 413 then "Request Entity Too Large"
  else if code = 414 then "Request URI Too Long"
  else if code = 415 then "Unsupported Media Type"
  else if code = 416 then "Requested Range Not Satisfiable"
  else if code = 417 then "Expectation Failed"
  else if code = 418 then "I\x27m a teapot"
  else if code = 421 then "Misdirected Request"
  else if code = 422 then "Unprocessable Entity"
  else if code = 423 then "Locked"
  else if code = 424 then "Failed Dependency"
  else if code = 425 then "Too Early"
  else if code = 426 then "Upgrade Required"
  else if code = 428 then "Precondition Required"
  else if code = 429 then "Too Many Requests"
  else if code = 431 then "Request Header Fields Too Large"
  else if code = 451 then "Unavailable For Legal Reasons"
  else if code = 500 then "Internal Server Error"
  else if code = 501 then "Not Implemented"
  else if code = 502 then "Bad Gateway"
  else if code = 503 then "Service Unavailable"
  else if code = 504 then "Gateway Timeout"
  else if code = 505 then "HTTP Version Not Supported"
  else if code = 506 then "Variant Also Negotiates"
  else if code = 507 then "Insufficient Storage"
  else if code = 508 then "Loop Detected"
  else if code = 510 then "Not Extended"
  else if code = 511 then "Network Authentication Required"
  else ""

/-- The type `http.Header`, a `map[string][]string`. -/
abbrev Header := GoMap (List String)

end http

/-! ## The text content-type classifier -/

/-- The package variable `DefaultTextContentTypes`. -/
def DefaultTextContentTypes : List String :=
  ["text/.*", "application/json", "application/.*\\+json", "application/xml",
   "application/.*\\+xml"]

/-- The package-level variables `textContentTypes` and
`textContentTypesRegexp` (a pointer, `none` when `nil`). -/
structure Globals where
  textContentTypes : List String
  textContentTypesRegexp : Option regexp.Regexp
deriving DecidableEq

/-- The package-level variables before `init` has run. -/
def Globals.zero : Globals := ⟨[], none⟩

/-- How a call of a function that returns `error` ends: it returns (with a
`nil` or non-`nil` error) or the goroutine panics. -/
inductive CallResult where
  | returned (err : Option regexp.ErrorCode)
  | panicked
deriving DecidableEq

/-- The pattern string assembled by `SetTextContentTypes` from the first
element `t0` and the whole list `types`. -/
def combinedPattern (t0 : String) (types : List String) : String :=
  (types.foldl (fun pattern t => pattern ++ "|" ++ t) ("(" ++ t0)) ++ ")\\b.*"

/-- `SetTextContentTypes`: `types[0]` panics on an empty slice; otherwise the
combined pattern is compiled and, on success only, installed. The library
function `regexp.Compile` is the parameter `compile`: any function from
patterns to an error or a matcher. -/
def SetTextContentTypes (compile : String → Except regexp.ErrorCode regexp.Regexp)
    (types : List String) (g : Globals) : CallResult × Globals :=
  match types with
  | [] => (.panicked, g)
  | t0 :: _ =>
    match compile (combinedPattern t0 types) with
    | .error err => (.returned (some err), g)
    | .ok r => (.returned none, { g with textContentTypesRegexp := some r })

/-- The package `init`: installs the default patterns; `none` stands for the
process exit of `log.Fatal`. -/
def init (compile : String → Except regexp.ErrorCode regexp.Regexp) (g : Globals) :
    Option Globals :=
  match SetTextContentTypes compile DefaultTextContentTypes g with
  | (.returned none, g') => some g'
  | _ => none

/-! ## The response writers -/

namespace events

/-- The fields of `events.APIGatewayProxyResponse`. -/
structure APIGatewayProxyResponse where
  StatusCode : Int
  Headers : GoMap String
  MultiValueHeaders : GoMap (List String)
  Body : List Byte
  IsBase64Encoded : Bool
deriving DecidableEq

/-- The fields of `events.ALBTargetGroupResponse`. -/
structure ALBTargetGroupResponse where
  StatusCode : Int
  StatusDescription : String
  Headers : GoMap String
  MultiValueHeaders : GoMap (List String)
  Body : List Byte
  IsBase64Encoded : Bool
deriving DecidableEq

end events

/-- The struct `GatewayResponseWriter`; `headers` is `none` while `nil`. -/
structure GatewayResponseWriter where
  response : events.APIGatewayProxyResponse
  output : List Byte
  headers : Option http.Header
  headersWritten : Bool
deriving DecidableEq

/-- The struct `ALBResponseWriter`; `headers` is `none` while `nil`. -/
structure ALBResponseWriter where
  response : events.ALBTargetGroupResponse
  output : List Byte
  headers : Option http.Header
  headersWritten : Bool
deriving DecidableEq

/-- The body of the loop `for k, v := range headers` of `WriteHeader`:
`if len(v) > 0 { finalHeaders[k] = v[len(v)-1] }`. -/
def collapseStep (finalHeaders : GoMap String) (kv : String × List String) : GoMap String :=
  if 0 < kv.2.length then finalHeaders.set kv.1 (kv.2.getD (kv.2.length - 1) "")
  else finalHeaders

/-- The loop `for k, v := range headers` of `WriteHeader`, run on an empty
`finalHeaders`. -/
def collapseHeaders (headers : http.Header) : GoMap String :=
  headers.foldl collapseStep []

/-- The default injected after the loop when `Content-Type` is missing or
empty. -/
def withDefaultContentType (finalHeaders : GoMap String) : GoMap String :=
  match finalHeaders.get? "Content-Type" with
  | some value =>
      if value = "" then finalHeaders.set "Content-Type" "text/plain; charset=utf-8"
      else finalHeaders
  | none => finalHeaders.set "Content-Type" "text/plain; charset=utf-8"

/-- The map `finalHeaders` built by `WriteHeader` from the header table
(`nil` ranges over nothing). -/
def finalHeaders (headers : Option http.Header) : GoMap String :=
  withDefaultContentType (collapseHeaders (headers.getD []))

namespace GatewayResponseWriter

/-- A zero-valued `GatewayResponseWriter`. -/
def fresh : GatewayResponseWriter :=
  { response := ⟨0, [], [], [], false⟩, output := [], headers := none, headersWritten := false }

/-- The method `Header`: creates the table when it is `nil` and returns it. -/
def Header (w : GatewayResponseWriter) : GatewayResponseWriter × http.Header :=
  match w.headers with
  | none => ({ w with headers := some [] }, [])
  | some h => (w, h)

/-- A mutation `f` of the table obtained from `Header()`; the table is a
reference, so the writer sees the change. -/
def mutateHeader (w : GatewayResponseWriter) (f : http.Header → http.Header) :
    GatewayResponseWriter :=
  { (w.Header).1 with headers := some (f (w.Header).2) }

/-- The method `WriteHeader`. -/
def WriteHeader (w : GatewayResponseWriter) (status : Int) : GatewayResponseWriter :=
  if w.headersWritten then w
  else
    { w with
      response := { w.response with StatusCode := status, Headers := finalHeaders w.headers }
      headersWritten := true }

/-- The method `Write`: the writer afterwards, and the returned count and
error of `w.output.Write(bs)` (a `bytes.Buffer` appends all of `bs` and its
error is always `nil`, here `none`). -/
def Write (w : GatewayResponseWriter) (bs : List Byte) : GatewayResponseWriter × Nat × Option String :=
  let w₁ := if ! w.headersWritten then w.WriteHeader http.StatusOK else w
  ({ w₁ with output := w₁.output ++ bs }, bs.length, none)

/-- The method `finish`, reading the process-wide matcher `re`. -/
def finish (re : regexp.Regexp) (w : GatewayResponseWriter) : GatewayResponseWriter :=
  let contentType := (w.response.Headers.get? "Content-Type").getD ""
  let isBase64Encoded := ! regexp.MatchString re contentType
  { w with
    response := { w.response with
      IsBase64Encoded := isBase64Encoded
      Body := if isBase64Encoded then base64.EncodeToString w.output else w.output } }

end GatewayResponseWriter

namespace ALBResponseWriter

/-- A zero-valued `ALBResponseWriter`. -/
def fresh : ALBResponseWriter :=
  { response := ⟨0, "", [], [], [], false⟩, output := [], headers := none,
    headersWritten := false }

/-- The method `Header`: creates the table when it is `nil` and returns it. -/
def Header (w : ALBResponseWriter) : ALBResponseWriter × http.Header :=
  match w.headers with
  | none => ({ w with headers := some [] }, [])
  | some h => (w, h)

/-- A mutation `f` of the table obtained from `Header()`; the table is a
reference, so the writer sees the change. -/
def mutateHeader (w : ALBResponseWriter) (f : http.Header → http.Header) : ALBResponseWriter :=
  { (w.Header).1 with headers := some (f (w.Header).2) }

/-- The method `WriteHeader`. -/
def WriteHeader (w : ALBResponseWriter) (status : Int) : ALBResponseWriter :=
  if w.headersWritten then w
  else
    { w with
      response := { w.response with
        StatusCode := status
        StatusDescription := toString status ++ " " ++ http.StatusText status
        Headers := finalHeaders w.headers }
      headersWritten := true }

/-- The method `Write`: the writer afterwards, and the returned count and
error of `w.output.Write(bs)` (a `bytes.Buffer` appends all of `bs` and its
error is always `nil`, here `none`). -/
def Write (w : ALBResponseWriter) (bs : List Byte) : ALBResponseWriter × Nat × Option String :=
  let w₁ := if ! w.headersWritten then w.WriteHeader http.StatusOK else w
  ({ w₁ with output := w₁.output ++ bs }, bs.length, none)

/-- The method `finish`, reading the process-wide matcher `re`. -/
def finish (re : regexp.Regexp) (w : ALBResponseWriter) : ALBResponseWriter :=
  let contentType := (w.response.Headers.get? "Content-Type").getD ""
  let isBase64Encoded := ! regexp.MatchString re contentType
  { w with
    response := { w.response with
      IsBase64Encoded := isBase64Encoded
      Body := if isBase64Encoded then base64.EncodeToString w.output else w.output } }

end ALBResponseWriter

/-- The matcher installed by `init`, that is by
`SetTextContentTypes(DefaultTextContentTypes)`: the combined default pattern
lies in the modelled fragment, so the matcher does not depend on what `Compile`
does outside it (`init_installs_defaultRegexp`). -/
def defaultRegexp : regexp.Regexp :=
  ((SetTextContentTypes (regexp.Compile (fun _ => .error .internalError))
    DefaultTextContentTypes Globals.zero).2.textContentTypesRegexp).getD .emptyMatch

/-! ## Call sequences on a writer -/

/-- The last value of the name `k` in the header table, if it has one. -/
def lastValue (headers : http.Header) (k : String) : Option String :=
  (headers.get? k).bind List.getLast?

/-- A call made by a handler: a mutation of the table returned by `Header()`
(the assignment `h[k] = vs`, to which `Set` and `Add` reduce, or
`delete(h, k)`), a `Write`, or a `WriteHeader`. -/
inductive Op where
  | setHeader (k : String) (vs : List String)
  | delHeader (k : String)
  | write (bs : List Byte)
  | writeHeader (status : Int)
deriving DecidableEq

/-- The call assigns the header name `Content-Type`. -/
def Op.setsContentType : Op → Bool
  | .setHeader k _ => k == "Content-Type"
  | _ => false

/-- The call is a `Write` or a `WriteHeader`. -/
def Op.commits : Op → Bool
  | .write _ => true
  | .writeHeader _ => true
  | _ => false

/-- The bytes passed to the `Write` calls of a sequence, in call order. -/
def writtenBytes : List Op → List Byte
  | [] => []
  | .write bs :: ops => bs ++ writtenBytes ops
  | _ :: ops => writtenBytes ops

namespace GatewayResponseWriter

/-- The calls `Write(c)` for every chunk `c`, in order. -/
def writeAll (w : GatewayResponseWriter) (chunks : List (List Byte)) : GatewayResponseWriter :=
  chunks.foldl (fun w bs => (w.Write bs).1) w

/-- The writer after one call. -/
def step (w : GatewayResponseWriter) : Op → GatewayResponseWriter
  | .setHeader k vs => w.mutateHeader (fun h => h.set k vs)
  | .delHeader k => w.mutateHeader (fun h => h.delete k)
  | .write bs => (w.Write bs).1
  | .writeHeader status => w.WriteHeader status

/-- The writer after a sequence of calls. -/
def run (w : GatewayResponseWriter) (ops : List Op) : GatewayResponseWriter :=
  ops.foldl step w

/-- The invariant of a run that never assigns `Content-Type`: the table has no
such name, and once committed the response carries the default. -/
def DefaultTyped (w : GatewayResponseWriter) : Prop :=
  (w.headers.getD []).get? "Content-Type" = none ∧
    (w.headersWritten = true →
      w.response.Headers.get? "Content-Type" = some "text/plain; charset=utf-8")

end GatewayResponseWriter

namespace ALBResponseWriter

/-- The calls `Write(c)` for every chunk `c`, in order. -/
def writeAll (w : ALBResponseWriter) (chunks : List (List Byte)) : ALBResponseWriter :=
  chunks.foldl (fun w bs => (w.Write bs).1) w

/-- The writer after one call. -/
def step (w : ALBResponseWriter) : Op → ALBResponseWriter
  | .setHeader k vs => w.mutateHeader (fun h => h.set k vs)
  | .delHeader k => w.mutateHeader (fun h => h.delete k)
  | .write bs => (w.Write bs).1
  | .writeHeader status => w.WriteHeader status

/-- The writer after a sequence of calls. -/
def run (w : ALBResponseWriter) (ops : List Op) : ALBResponseWriter :=
  ops.foldl step w

/-- The invariant of a run that never assigns `Content-Type`: the table has no
such name, and once committed the response carries the default. -/
def DefaultTyped (w : ALBResponseWriter) : Prop :=
  (w.headers.getD []).get? "Content-Type" = none ∧
    (w.headersWritten = true →
      w.response.Headers.get? "Content-Type" = some "text/plain; charset=utf-8")

end ALBResponseWriter

/-! ## Shapes of patterns and of content types -/

namespace regexp

/-- The expression of the literal characters `cs` followed by `k`. -/
def litThen (cs : List Char) (k : Regexp) : Regexp :=
  cs.foldr (fun c acc => .concat (.literal c) acc) k

/-- The expression of the literal characters `cs`. -/
def litSeq : List Char → Regexp
  | [] => .emptyMatch
  | [c] => .literal c
  | c :: cs => .concat (.literal c) (litSeq cs)

/-- The declarative meaning of an expression: `Matches r p q` says that some
match of `r` starts at position `p` and ends at position `q`. The matcher
`ends` computes exactly this relation (`mem_ends_iff_Matches`). -/
inductive Matches : Regexp → Pos → Pos → Prop where
  | emptyMatch (p : Pos) : Matches .emptyMatch p p
  | literal (c : Char) (p : Pos) (xs : List Char) (h : p.2 = c :: xs) :
      Matches (.literal c) p (some c, xs)
  | anyCharNotNL (p : Pos) (x : Char) (xs : List Char) (h : p.2 = x :: xs) (hx : x ≠ '\n') :
      Matches .anyCharNotNL p (some x, xs)
  | beginText (p : Pos) (h : p.1 = none) : Matches .beginText p p
  | endText (p : Pos) (h : p.2 = []) : Matches .endText p p
  | wordBoundary (p : Pos) (h : atWordBoundary p = true) : Matches .wordBoundary p p
  | noWordBoundary (p : Pos) (h : atWordBoundary p = false) : Matches .noWordBoundary p p
  | capture (r : Regexp) (p q : Pos) (h : Matches r p q) : Matches (.capture r) p q
  | starNil (r : Regexp) (p : Pos) : Matches (.star r) p p
  | starStep (r : Regexp) (p m q : Pos) (h₁ : Matches r p m) (h₂ : Matches (.star r) m q) :
      Matches (.star r) p q
  | plus (r : Regexp) (p m q : Pos) (h₁ : Matches r p m) (h₂ : Matches (.star r) m q) :
      Matches (.plus r) p q
  | questNone (r : Regexp) (p : Pos) : Matches (.quest r) p p
  | questSome (r : Regexp) (p q : Pos) (h : Matches r p q) : Matches (.quest r) p q
  | concat (r₁ r₂ : Regexp) (p m q : Pos) (h₁ : Matches r₁ p m) (h₂ : Matches r₂ m q) :
      Matches (.concat r₁ r₂) p q
  | alternateLeft (r₁ r₂ : Regexp) (p q : Pos) (h : Matches r₁ p q) :
      Matches (.alternate r₁ r₂) p q
  | alternateRight (r₁ r₂ : Regexp) (p q : Pos) (h : Matches r₂ p q) :
      Matches (.alternate r₁ r₂) p q

/-- The character just before the position reached after reading `cs`. -/
def prevAfter (prev : Option Char) (cs : List Char) : Option Char :=
  match cs.getLast? with
  | some c => some c
  | none => prev

end regexp

/-- The characters `pat` occur somewhere in `l`. -/
def occursIn (pat l : List Char) : Bool := l.tails.any (fun t => pat.isPrefixOf t)

/-- One of the default patterns can be read at the beginning of `l`: `text/`,
`application/json`, `application/xml`, or `application/` with `+json` or
`+xml` somewhere after it. -/
def defaultPatternAt (l : List Char) : Bool :=
  "text/".toList.isPrefixOf l || "application/json".toList.isPrefixOf l ||
    "application/xml".toList.isPrefixOf l ||
    ("application/".toList.isPrefixOf l &&
      (occursIn "+json".toList (l.drop 12) || occursIn "+xml".toList (l.drop 12)))

/-- One of the default patterns can be read at some position of the content
type. -/
def containsDefaultPattern (contentType : String) : Bool :=
  contentType.toList.tails.any defaultPatternAt

/-- The matcher installed by `SetTextContentTypes` for the single pattern
`^$)|(^$`, whose combined pattern is `(^$)|(^$|^$)|(^$)\b.*`. -/
def emptyOnlyRegexp : regexp.Regexp :=
  ((SetTextContentTypes (regexp.Compile (fun _ => .error .internalError))
    ["^$)|(^$"] Globals.zero).2.textContentTypesRegexp).getD .emptyMatch

/-! ## Relating the two writers, and the committed content type -/

/-- The fields that an `ALBResponseWriter` shares with a
`GatewayResponseWriter`: everything but `StatusDescription`. -/
def ALBResponseWriter.toGateway (w : ALBResponseWriter) : GatewayResponseWriter :=
  { response :=
      { StatusCode := w.response.StatusCode
        Headers := w.response.Headers
        MultiValueHeaders := w.response.MultiValueHeaders
        Body := w.response.Body
        IsBase64Encoded := w.response.IsBase64Encoded }
    output := w.output
    headers := w.headers
    headersWritten := w.headersWritten }

/-- The `Content-Type` that a commit writes for the header table `table`: the
last value of `Content-Type` when there is one and it is not empty, the default
otherwise. -/
def contentTypeAtCommit (table : http.Header) : String :=
  match lastValue table "Content-Type" with
  | some v => if v = "" then "text/plain; charset=utf-8" else v
  | none => "text/plain; charset=utf-8"
/-! ## Base64 round trip -/

namespace base64

theorem decChar_encChar : ∀ i, i < 64 → decChar (encChar i) = some i := by decide

theorem encChar_ne_lf : ∀ i, i < 64 → (encChar i).val ≠ 10 ∧ (encChar i).val ≠ 13 := by decide

theorem decChar_StdPadding : decChar StdPadding = none := by decide

theorem decodeQuanta_EncodeToString (bs : List Byte) :
    decodeQuanta (EncodeToString bs) = some bs := by
  induction bs using EncodeToString.induct with
  | case1 a b c rest ih =>
    have ha := a.isLt
    have hb := b.isLt
    have hc := c.isLt
    simp only [EncodeToString, decodeQuanta]
    rw [decChar_encChar _ (by omega), decChar_encChar _ (by omega),
      decChar_encChar _ (by omega), decChar_encChar _ (by omega), ih]
    simp only [Option.map_some', Option.some.injEq, List.cons.injEq, and_true]
    refine ⟨?_, ?_, ?_⟩ <;> apply Fin.ext <;> simp only [byteOfNat] <;> omega
  | case2 a b =>
    have ha := a.isLt
    have hb := b.isLt
    simp only [EncodeToString, decodeQuanta]
    rw [decChar_encChar _ (by omega), decChar_encChar _ (by omega),
      decChar_encChar _ (by omega), decChar_StdPadding]
    simp only [and_self, if_true, Option.some.injEq, List.cons.injEq, and_true]
    refine ⟨?_, ?_⟩ <;> apply Fin.ext <;> simp only [byteOfNat] <;> omega
  | case3 a =>
    have ha := a.isLt
    simp only [EncodeToString, decodeQuanta]
    rw [decChar_encChar _ (by omega), decChar_encChar _ (by omega), decChar_StdPadding]
    simp only [and_self, if_true, Option.some.injEq, List.cons.injEq, and_true]
    apply Fin.ext; simp only [byteOfNat]; omega
  | case4 => rfl

theorem filter_EncodeToString (bs : List Byte) :
    (EncodeToString bs).filter (fun b => b.val ≠ 10 ∧ b.val ≠ 13) = EncodeToString bs := by
  have hp : (StdPadding.val ≠ 10 ∧ StdPadding.val ≠ 13) := by decide
  induction bs using EncodeToString.induct with
  | case1 a b c rest ih =>
    have ha := a.isLt
    have hb := b.isLt
    have hc := c.isLt
    simp only [EncodeToString]
    rw [List.filter_cons_of_pos (by simpa using encChar_ne_lf _ (by omega)),
      List.filter_cons_of_pos (by simpa using encChar_ne_lf _ (by omega)),
      List.filter_cons_of_pos (by simpa using encChar_ne_lf _ (by omega)),
      List.filter_cons_of_pos (by simpa using encChar_ne_lf _ (by omega)), ih]
  | case2 a b =>
    have ha := a.isLt
    have hb := b.isLt
    simp only [EncodeToString]
    rw [List.filter_cons_of_pos (by simpa using encChar_ne_lf _ (by omega)),
      List.filter_cons_of_pos (by simpa using encChar_ne_lf _ (by omega)),
      List.filter_cons_of_pos (by simpa using encChar_ne_lf _ (by omega)),
      List.filter_cons_of_pos (by simpa using hp), List.filter_nil]
  | case3 a =>
    have ha := a.isLt
    simp only [EncodeToString]
    rw [List.filter_cons_of_pos (by simpa using encChar_ne_lf _ (by omega)),
      List.filter_cons_of_pos (by simpa using encChar_ne_lf _ (by omega)),
      List.filter_cons_of_pos (by simpa using hp),
      List.filter_cons_of_pos (by simpa using hp), List.filter_nil]
  | case4 => rfl

/-- Decoding the standard encoding of `bs` gives `bs` back. -/
theorem DecodeString_EncodeToString (bs : List Byte) :
    DecodeString (EncodeToString bs) = some bs := by
  unfold DecodeString
  rw [filter_EncodeToString, decodeQuanta_EncodeToString]

end base64

/-! ## Go maps: reads after writes -/

namespace GoMap

variable {V : Type}

theorem get?_nil (k : String) : get? ([] : GoMap V) k = none := rfl

theorem get?_cons (k k' : String) (v : V) (m : GoMap V) :
    get? ((k', v) :: m) k = if k = k' then some v else get? m k := by
  unfold get?
  by_cases h : k = k'
  · subst h; simp [List.lookup]
  · have hb : (k == k') = false := by simpa using h
    simp [List.lookup, hb, h]

theorem get?_set_self (m : GoMap V) (k : String) (v : V) : (m.set k v).get? k = some v := by
  induction m with
  | nil => simp [set, get?_cons]
  | cons e t ih =>
    obtain ⟨k', v'⟩ := e
    by_cases h : k' = k
    · simp [set, h, get?_cons]
    · have h' : k ≠ k' := fun e => h e.symm
      simp [set, h, h', get?_cons, ih]

theorem get?_set_of_ne (m : GoMap V) {k k' : String} (v : V) (h : k' ≠ k) :
    (m.set k v).get? k' = m.get? k' := by
  induction m with
  | nil => simp [set, get?_cons, h, get?_nil]
  | cons e t ih =>
    obtain ⟨k₀, v₀⟩ := e
    by_cases h₀ : k₀ = k
    · subst h₀; simp [set, get?_cons, h]
    · simp only [set, h₀, if_false, get?_cons, ih]

theorem get?_delete_of_ne (m : GoMap V) {k k' : String} (h : k' ≠ k) :
    (m.delete k).get? k' = m.get? k' := by
  induction m with
  | nil => rfl
  | cons e t ih =>
    obtain ⟨k₀, v₀⟩ := e
    unfold delete at ih ⊢
    simp only [ne_eq, decide_not] at ih ⊢
    by_cases h₀ : k₀ = k
    · subst h₀
      simp [List.filter_cons, get?_cons, h, ih]
    · simp [List.filter_cons, h₀, get?_cons, ih]

theorem get?_delete_self (m : GoMap V) (k : String) : (m.delete k).get? k = none := by
  induction m with
  | nil => rfl
  | cons e t ih =>
    obtain ⟨k₀, v₀⟩ := e
    unfold delete at ih ⊢
    simp only [ne_eq, decide_not] at ih ⊢
    by_cases h₀ : k₀ = k
    · simp [List.filter_cons, h₀, ih]
    · have h' : k ≠ k₀ := fun e => h₀ e.symm
      simp [List.filter_cons, h₀, h', get?_cons, ih]

theorem get?_eq_none_of_not_mem (m : GoMap V) (k : String) (h : k ∉ m.map Prod.fst) :
    m.get? k = none := by
  induction m with
  | nil => rfl
  | cons e t ih =>
    obtain ⟨k₀, v₀⟩ := e
    simp only [List.map_cons, List.mem_cons, not_or] at h
    simp [get?_cons, h.1, ih h.2]

theorem WellFormed_nil : WellFormed ([] : GoMap V) := List.nodup_nil

theorem mem_keys_set (m : GoMap V) (k k' : String) (v : V) :
    k' ∈ (m.set k v).map Prod.fst ↔ k' = k ∨ k' ∈ m.map Prod.fst := by
  induction m with
  | nil => simp [set]
  | cons e t ih =>
    obtain ⟨k₀, v₀⟩ := e
    by_cases h₀ : k₀ = k
    · subst h₀; simp [set]
    · simp only [set, h₀, if_false, List.map_cons, List.mem_cons, ih]
      constructor
      · rintro (h | h | h)
        · exact Or.inr (Or.inl h)
        · exact Or.inl h
        · exact Or.inr (Or.inr h)
      · rintro (h | h | h)
        · exact Or.inr (Or.inl h)
        · exact Or.inl h
        · exact Or.inr (Or.inr h)

/-- Assignment keeps the keys of a Go map distinct. -/
theorem WellFormed_set (m : GoMap V) (k : String) (v : V) (h : WellFormed m) :
    WellFormed (m.set k v) := by
  induction m with
  | nil => simp [set, WellFormed]
  | cons e t ih =>
    obtain ⟨k₀, v₀⟩ := e
    have ht : WellFormed t := (List.nodup_cons.mp h).2
    have hk₀ : k₀ ∉ t.map Prod.fst := (List.nodup_cons.mp h).1
    by_cases h₀ : k₀ = k
    · subst h₀
      simpa [set, WellFormed] using h
    · simp only [set, h₀, if_false, WellFormed, List.map_cons, List.nodup_cons]
      refine ⟨?_, ih ht⟩
      rw [mem_keys_set]
      rintro (h' | h')
      · exact h₀ h'
      · exact hk₀ h'

/-- Deletion keeps the keys of a Go map distinct. -/
theorem WellFormed_delete (m : GoMap V) (k : String) (h : WellFormed m) :
    WellFormed (m.delete k) := by
  unfold WellFormed delete at *
  exact (List.Nodup.sublist ((List.filter_sublist m).map Prod.fst) h)

end GoMap

/-! ## The header collapse -/

theorem getD_length_sub_one (vs : List String) (h : 0 < vs.length) :
    some (vs.getD (vs.length - 1) "") = vs.getLast? := by
  rw [List.getLast?_eq_getElem?, List.getD_eq_getElem?_getD]
  have : vs.length - 1 < vs.length := by omega
  simp [List.getElem?_eq_getElem this]

theorem collapseHeaders_eq (headers : http.Header) :
    collapseHeaders headers = headers.foldl collapseStep [] := rfl

theorem get?_foldl_collapseStep (headers : http.Header) (hwf : GoMap.WellFormed headers)
    (acc : GoMap String) (k : String) :
    (headers.foldl collapseStep acc).get? k =
      match lastValue headers k with
      | some v => some v
      | none => acc.get? k := by
  induction headers generalizing acc with
  | nil => simp [lastValue, GoMap.get?_nil]
  | cons e t ih =>
    obtain ⟨k₀, vs⟩ := e
    have hwf' : GoMap.WellFormed t := (List.nodup_cons.mp hwf).2
    have hk₀ : k₀ ∉ t.map Prod.fst := (List.nodup_cons.mp hwf).1
    rw [List.foldl_cons, ih hwf']
    by_cases hk : k = k₀
    · subst hk
      have hnone : GoMap.get? t k = none := GoMap.get?_eq_none_of_not_mem t k hk₀
      simp only [lastValue, hnone, Option.none_bind, GoMap.get?_cons, if_true, Option.some_bind]
      unfold collapseStep
      by_cases hlen : 0 < vs.length
      · simp only [hlen, if_true, GoMap.get?_set_self]
        rw [getD_length_sub_one vs hlen]
        cases hl : vs.getLast? with
        | none =>
          rw [List.getLast?_eq_none_iff] at hl
          subst hl; simp at hlen
        | some v => rfl
      · have hnil : vs = [] := by
          cases vs with
          | nil => rfl
          | cons a b => simp at hlen
        subst hnil
        simp
    · have hstep : (collapseStep acc (k₀, vs)).get? k = acc.get? k := by
        unfold collapseStep
        by_cases hlen : 0 < vs.length
        · simp only [hlen, if_true]; exact GoMap.get?_set_of_ne _ _ hk
        · simp only [hlen, if_false]
      simp only [lastValue, GoMap.get?_cons, hk, if_false, hstep]

/-- The collapsed map reads, at every name, the last value of that name. -/
theorem get?_collapseHeaders (headers : http.Header) (hwf : GoMap.WellFormed headers)
    (k : String) : (collapseHeaders headers).get? k = lastValue headers k := by
  rw [collapseHeaders_eq, get?_foldl_collapseStep headers hwf]
  cases lastValue headers k <;> simp [GoMap.get?_nil]

theorem get?_foldl_collapseStep_none (headers : http.Header) (acc : GoMap String) (k : String)
    (hacc : acc.get? k = none) (hk : headers.get? k = none) :
    (headers.foldl collapseStep acc).get? k = none := by
  induction headers generalizing acc with
  | nil => simpa using hacc
  | cons e t ih =>
    obtain ⟨k₀, vs⟩ := e
    rw [GoMap.get?_cons] at hk
    by_cases hk₀ : k = k₀
    · simp [hk₀] at hk
    · simp only [hk₀, if_false] at hk
      rw [List.foldl_cons]
      apply ih _ _ hk
      unfold collapseStep
      by_cases hlen : 0 < vs.length
      · simp only [hlen, if_true]; rw [GoMap.get?_set_of_ne _ _ hk₀]; exact hacc
      · simpa only [hlen, if_false] using hacc

/-- A name absent from the header table is absent from the collapsed map
(no assumption on the table). -/
theorem get?_collapseHeaders_none (headers : http.Header) (k : String)
    (hk : headers.get? k = none) : (collapseHeaders headers).get? k = none :=
  get?_foldl_collapseStep_none headers [] k rfl hk

theorem get?_withDefaultContentType_of_ne (m : GoMap String) {k : String}
    (hk : k ≠ "Content-Type") : (withDefaultContentType m).get? k = m.get? k := by
  unfold withDefaultContentType
  cases h : m.get? "Content-Type" with
  | none => exact GoMap.get?_set_of_ne _ _ hk
  | some v =>
    by_cases hv : v = ""
    · simp only [hv, if_true]; exact GoMap.get?_set_of_ne _ _ hk
    · simp only [hv, if_false]

theorem get?_withDefaultContentType_self (m : GoMap String) :
    (withDefaultContentType m).get? "Content-Type" =
      match m.get? "Content-Type" with
      | some v => if v = "" then some "text/plain; charset=utf-8" else some v
      | none => some "text/plain; charset=utf-8" := by
  unfold withDefaultContentType
  cases h : m.get? "Content-Type" with
  | none => exact GoMap.get?_set_self _ _ _
  | some v =>
    by_cases hv : v = ""
    · simp only [hv, if_true]; exact GoMap.get?_set_self _ _ _
    · simp only [hv, if_false]; exact h

/-! ## Writers: writes after the commit -/

theorem finalHeaders_single (k v : String) :
    collapseHeaders [(k, [v])] = [(k, v)] := by
  simp [collapseHeaders, collapseStep, GoMap.set]

theorem finalHeaders_contentType (ct : String) (hct : ct ≠ "") :
    finalHeaders (some [("Content-Type", [ct])]) = [("Content-Type", ct)] := by
  simp [finalHeaders, finalHeaders_single, withDefaultContentType, GoMap.get?_cons, hct]

namespace GatewayResponseWriter

theorem headersWritten_WriteHeader (w : GatewayResponseWriter) (s : Int) :
    (w.WriteHeader s).headersWritten = true := by
  unfold WriteHeader
  by_cases h : w.headersWritten = true <;> simp [h]

theorem output_WriteHeader (w : GatewayResponseWriter) (s : Int) :
    (w.WriteHeader s).output = w.output := by
  unfold WriteHeader
  by_cases h : w.headersWritten = true <;> simp [h]

theorem headers_WriteHeader (w : GatewayResponseWriter) (s : Int) :
    (w.WriteHeader s).headers = w.headers := by
  unfold WriteHeader
  by_cases h : w.headersWritten = true <;> simp [h]

theorem WriteHeader_of_committed (w : GatewayResponseWriter) (s : Int)
    (h : w.headersWritten = true) : w.WriteHeader s = w := by
  simp [WriteHeader, h]

theorem Write_of_committed (w : GatewayResponseWriter) (bs : List Byte)
    (h : w.headersWritten = true) : (w.Write bs).1 = { w with output := w.output ++ bs } := by
  simp [Write, h]

theorem Write_of_fresh (w : GatewayResponseWriter) (bs : List Byte)
    (h : w.headersWritten = false) :
    (w.Write bs).1 = { w.WriteHeader http.StatusOK with output := w.output ++ bs } := by
  simp [Write, h, output_WriteHeader]

theorem writeAll_of_committed (w : GatewayResponseWriter) (chunks : List (List Byte))
    (h : w.headersWritten = true) :
    w.writeAll chunks = { w with output := w.output ++ chunks.flatten } := by
  induction chunks generalizing w with
  | nil => simp [writeAll]
  | cons c cs ih =>
    have := ih { w with output := w.output ++ c } h
    simp only [writeAll, List.foldl_cons] at this ⊢
    rw [Write_of_committed w c h, this]
    simp [List.append_assoc]

theorem writeAll_cons_of_fresh (w : GatewayResponseWriter) (c : List Byte)
    (cs : List (List Byte)) (h : w.headersWritten = false) :
    w.writeAll (c :: cs) =
      { w.WriteHeader http.StatusOK with output := w.output ++ (c :: cs).flatten } := by
  have h1 : w.writeAll (c :: cs) = ((w.Write c).1).writeAll cs := rfl
  rw [h1, Write_of_fresh w c h, writeAll_of_committed _ _
    (by simpa using headersWritten_WriteHeader w http.StatusOK)]
  simp [List.append_assoc]

end GatewayResponseWriter

namespace ALBResponseWriter

theorem headersWritten_WriteHeader_alb (w : ALBResponseWriter) (s : Int) :
    (w.WriteHeader s).headersWritten = true := by
  unfold WriteHeader
  by_cases h : w.headersWritten = true <;> simp [h]

theorem output_WriteHeader_alb (w : ALBResponseWriter) (s : Int) :
    (w.WriteHeader s).output = w.output := by
  unfold WriteHeader
  by_cases h : w.headersWritten = true <;> simp [h]

theorem headers_WriteHeader_alb (w : ALBResponseWriter) (s : Int) :
    (w.WriteHeader s).headers = w.headers := by
  unfold WriteHeader
  by_cases h : w.headersWritten = true <;> simp [h]

theorem WriteHeader_of_committed_alb (w : ALBResponseWriter) (s : Int)
    (h : w.headersWritten = true) : w.WriteHeader s = w := by
  simp [WriteHeader, h]

theorem Write_of_committed_alb (w : ALBResponseWriter) (bs : List Byte)
    (h : w.headersWritten = true) : (w.Write bs).1 = { w with output := w.output ++ bs } := by
  simp [Write, h]

theorem Write_of_fresh_alb (w : ALBResponseWriter) (bs : List Byte)
    (h : w.headersWritten = false) :
    (w.Write bs).1 = { w.WriteHeader http.StatusOK with output := w.output ++ bs } := by
  simp [Write, h, output_WriteHeader_alb]

theorem writeAll_of_committed_alb (w : ALBResponseWriter) (chunks : List (List Byte))
    (h : w.headersWritten = true) :
    w.writeAll chunks = { w with output := w.output ++ chunks.flatten } := by
  induction chunks generalizing w with
  | nil => simp [writeAll]
  | cons c cs ih =>
    have := ih { w with output := w.output ++ c } h
    simp only [writeAll, List.foldl_cons] at this ⊢
    rw [Write_of_committed_alb w c h, this]
    simp [List.append_assoc]

theorem writeAll_cons_of_fresh_alb (w : ALBResponseWriter) (c : List Byte)
    (cs : List (List Byte)) (h : w.headersWritten = false) :
    w.writeAll (c :: cs) =
      { w.WriteHeader http.StatusOK with output := w.output ++ (c :: cs).flatten } := by
  have h1 : w.writeAll (c :: cs) = ((w.Write c).1).writeAll cs := rfl
  rw [h1, Write_of_fresh_alb w c h, writeAll_of_committed_alb _ _
    (by simpa using headersWritten_WriteHeader_alb w http.StatusOK)]
  simp [List.append_assoc]

end ALBResponseWriter

/-! ## Facts about the default configuration -/

/-- On a pattern of the modelled fragment `Compile` does not depend on its
parameter. -/
theorem Compile_of_fragment (outside : String → Except regexp.ErrorCode regexp.Regexp)
    (expr : String) (res : Except regexp.ErrorCode regexp.Regexp)
    (h : regexp.compileFragment expr = some res) : regexp.Compile outside expr = res := by
  simp [regexp.Compile, h]

/-- The combined default pattern lies in the modelled fragment and compiles to
`defaultRegexp`. -/
theorem compileFragment_default :
    regexp.compileFragment
        "(text/.*|text/.*|application/json|application/.*\\+json|application/xml|application/.*\\+xml)\\b.*" =
      some (.ok defaultRegexp) := by decide!

theorem combinedPattern_default :
    combinedPattern "text/.*" DefaultTextContentTypes =
      "(text/.*|text/.*|application/json|application/.*\\+json|application/xml|application/.*\\+xml)\\b.*" := by
  decide

/-- The package `init` succeeds and installs `defaultRegexp`, whatever `Compile`
does outside the modelled fragment. -/
theorem init_installs_defaultRegexp
    (outside : String → Except regexp.ErrorCode regexp.Regexp) :
    init (regexp.Compile outside) Globals.zero = some ⟨[], some defaultRegexp⟩ := by
  have h : regexp.Compile outside (combinedPattern "text/.*" DefaultTextContentTypes) =
      .ok defaultRegexp := by
    rw [combinedPattern_default]
    exact Compile_of_fragment outside _ _ compileFragment_default
  unfold init SetTextContentTypes
  simp only [DefaultTextContentTypes] at h ⊢
  rw [h]
  rfl

/-- The single pattern `^$)|(^$` gives a combined pattern of the modelled
fragment, which compiles to `emptyOnlyRegexp`; `SetTextContentTypes` installs
it, whatever `Compile` does outside the fragment. -/
theorem SetTextContentTypes_emptyOnly
    (outside : String → Except regexp.ErrorCode regexp.Regexp) (g : Globals) :
    SetTextContentTypes (regexp.Compile outside) ["^$)|(^$"] g =
      (.returned none, { g with textContentTypesRegexp := some emptyOnlyRegexp }) := by
  have hp : combinedPattern "^$)|(^$" ["^$)|(^$"] = "(^$)|(^$|^$)|(^$)\\b.*" := by decide
  have hf : regexp.compileFragment "(^$)|(^$|^$)|(^$)\\b.*" = some (.ok emptyOnlyRegexp) := by
    decide!
  have h : regexp.Compile outside (combinedPattern "^$)|(^$" ["^$)|(^$"]) =
      .ok emptyOnlyRegexp := by
    rw [hp]; exact Compile_of_fragment outside _ _ hf
  unfold SetTextContentTypes
  simp only [h]

theorem default_matches_textPlain :
    regexp.MatchString defaultRegexp "text/plain; charset=utf-8" = true := by decide!

theorem default_matches_json :
    regexp.MatchString defaultRegexp "application/json" = true := by decide!

theorem default_rejects_empty :
    regexp.MatchString defaultRegexp "" = false := by decide!

theorem finalHeaders_nil :
    finalHeaders none = [("Content-Type", "text/plain; charset=utf-8")] := by decide

/-! ## Call sequences: what a run preserves -/

theorem writtenBytes_cons (op : Op) (ops : List Op) :
    writtenBytes (op :: ops) = writtenBytes [op] ++ writtenBytes ops := by
  cases op <;> simp [writtenBytes]

namespace GatewayResponseWriter

theorem mutateHeader_eq (w : GatewayResponseWriter) (f : http.Header → http.Header) :
    w.mutateHeader f = { w with headers := some (f (w.headers.getD [])) } := by
  unfold mutateHeader Header
  cases h : w.headers <;> simp [h]

theorem DefaultTyped_WriteHeader (w : GatewayResponseWriter) (s : Int) (h : DefaultTyped w) :
    DefaultTyped (w.WriteHeader s) := by
  unfold WriteHeader
  by_cases hw : w.headersWritten = true
  · simpa [hw] using h
  · have hw' : w.headersWritten = false := by simpa using hw
    refine ⟨by simpa [hw] using h.1, fun _ => ?_⟩
    simp only [hw', Bool.false_eq_true, if_false, finalHeaders]
    rw [get?_withDefaultContentType_self, get?_collapseHeaders_none _ _ h.1]

theorem DefaultTyped_step (w : GatewayResponseWriter) (op : Op)
    (hop : op.setsContentType = false) (h : DefaultTyped w) : DefaultTyped (w.step op) := by
  cases op with
  | setHeader k vs =>
    have hk : "Content-Type" ≠ k := by
      intro e; subst e; simp [Op.setsContentType] at hop
    refine ⟨?_, ?_⟩
    · simp only [step, mutateHeader_eq, Option.getD_some]
      rw [GoMap.get?_set_of_ne _ _ hk]; exact h.1
    · simpa only [step, mutateHeader_eq] using h.2
  | delHeader k =>
    refine ⟨?_, ?_⟩
    · simp only [step, mutateHeader_eq, Option.getD_some]
      by_cases hk : "Content-Type" = k
      · rw [← hk]; exact GoMap.get?_delete_self _ _
      · rw [GoMap.get?_delete_of_ne _ hk]; exact h.1
    · simpa only [step, mutateHeader_eq] using h.2
  | write bs =>
    have h' := DefaultTyped_WriteHeader w http.StatusOK h
    unfold step Write
    by_cases hw : w.headersWritten = true
    · simpa [hw, DefaultTyped] using h
    · simpa [hw, DefaultTyped] using h'
  | writeHeader s => exact DefaultTyped_WriteHeader w s h

theorem headersWritten_step (w : GatewayResponseWriter) (op : Op)
    (h : w.headersWritten = true ∨ op.commits = true) : (w.step op).headersWritten = true := by
  cases op with
  | setHeader k vs =>
    rcases h with h | h
    · simpa [step, mutateHeader_eq] using h
    · simp [Op.commits] at h
  | delHeader k =>
    rcases h with h | h
    · simpa [step, mutateHeader_eq] using h
    · simp [Op.commits] at h
  | write bs =>
    unfold step Write
    by_cases hw : w.headersWritten = true
    · simp [hw]
    · simp [hw, headersWritten_WriteHeader]
  | writeHeader s => exact headersWritten_WriteHeader w s

theorem output_step (w : GatewayResponseWriter) (op : Op) :
    (w.step op).output = w.output ++ writtenBytes [op] := by
  cases op with
  | setHeader k vs => simp [step, mutateHeader_eq, writtenBytes]
  | delHeader k => simp [step, mutateHeader_eq, writtenBytes]
  | write bs =>
    unfold step Write
    by_cases hw : w.headersWritten = true
    · simp [hw, writtenBytes]
    · simp [hw, writtenBytes, output_WriteHeader]
  | writeHeader s => simp [step, output_WriteHeader, writtenBytes]

theorem run_facts (ops : List Op) (w : GatewayResponseWriter)
    (hno : ops.all (fun op => ! op.setsContentType) = true) (h : DefaultTyped w) :
    DefaultTyped (w.run ops) ∧ (w.run ops).output = w.output ++ writtenBytes ops ∧
      (w.headersWritten = true ∨ ops.any Op.commits = true →
        (w.run ops).headersWritten = true) := by
  induction ops generalizing w with
  | nil => simp [run, writtenBytes, h]
  | cons op ops ih =>
    simp only [List.all_cons, Bool.and_eq_true, Bool.not_eq_true'] at hno
    obtain ⟨h1, h2, h3⟩ := ih (w.step op) hno.2 (DefaultTyped_step w op hno.1 h)
    refine ⟨h1, ?_, ?_⟩
    · have : w.run (op :: ops) = (w.step op).run ops := rfl
      rw [this, h2, output_step, List.append_assoc, ← writtenBytes_cons]
    · intro hc
      apply h3
      simp only [List.any_cons, Bool.or_eq_true] at hc
      rcases hc with hc | hc | hc
      · exact Or.inl (headersWritten_step w op (Or.inl hc))
      · exact Or.inl (headersWritten_step w op (Or.inr hc))
      · exact Or.inr hc

end GatewayResponseWriter

namespace ALBResponseWriter

theorem mutateHeader_eq_alb (w : ALBResponseWriter) (f : http.Header → http.Header) :
    w.mutateHeader f = { w with headers := some (f (w.headers.getD [])) } := by
  unfold mutateHeader Header
  cases h : w.headers <;> simp [h]

theorem DefaultTyped_WriteHeader_alb (w : ALBResponseWriter) (s : Int) (h : DefaultTyped w) :
    DefaultTyped (w.WriteHeader s) := by
  unfold WriteHeader
  by_cases hw : w.headersWritten = true
  · simpa [hw] using h
  · have hw' : w.headersWritten = false := by simpa using hw
    refine ⟨by simpa [hw] using h.1, fun _ => ?_⟩
    simp only [hw', Bool.false_eq_true, if_false, finalHeaders]
    rw [get?_withDefaultContentType_self, get?_collapseHeaders_none _ _ h.1]

theorem DefaultTyped_step_alb (w : ALBResponseWriter) (op : Op)
    (hop : op.setsContentType = false) (h : DefaultTyped w) : DefaultTyped (w.step op) := by
  cases op with
  | setHeader k vs =>
    have hk : "Content-Type" ≠ k := by
      intro e; subst e; simp [Op.setsContentType] at hop
    refine ⟨?_, ?_⟩
    · simp only [step, mutateHeader_eq_alb, Option.getD_some]
      rw [GoMap.get?_set_of_ne _ _ hk]; exact h.1
    · simpa only [step, mutateHeader_eq_alb] using h.2
  | delHeader k =>
    refine ⟨?_, ?_⟩
    · simp only [step, mutateHeader_eq_alb, Option.getD_some]
      by_cases hk : "Content-Type" = k
      · rw [← hk]; exact GoMap.get?_delete_self _ _
      · rw [GoMap.get?_delete_of_ne _ hk]; exact h.1
    · simpa only [step, mutateHeader_eq_alb] using h.2
  | write bs =>
    have h' := DefaultTyped_WriteHeader_alb w http.StatusOK h
    unfold step Write
    by_cases hw : w.headersWritten = true
    · simpa [hw, DefaultTyped] using h
    · simpa [hw, DefaultTyped] using h'
  | writeHeader s => exact DefaultTyped_WriteHeader_alb w s h

theorem headersWritten_step_alb (w : ALBResponseWriter) (op : Op)
    (h : w.headersWritten = true ∨ op.commits = true) : (w.step op).headersWritten = true := by
  cases op with
  | setHeader k vs =>
    rcases h with h | h
    · simpa [step, mutateHeader_eq_alb] using h
    · simp [Op.commits] at h
  | delHeader k =>
    rcases h with h | h
    · simpa [step, mutateHeader_eq_alb] using h
    · simp [Op.commits] at h
  | write bs =>
    unfold step Write
    by_cases hw : w.headersWritten = true
    · simp [hw]
    · simp [hw, headersWritten_WriteHeader_alb]
  | writeHeader s => exact headersWritten_WriteHeader_alb w s

theorem output_step_alb (w : ALBResponseWriter) (op : Op) :
    (w.step op).output = w.output ++ writtenBytes [op] := by
  cases op with
  | setHeader k vs => simp [step, mutateHeader_eq_alb, writtenBytes]
  | delHeader k => simp [step, mutateHeader_eq_alb, writtenBytes]
  | write bs =>
    unfold step Write
    by_cases hw : w.headersWritten = true
    · simp [hw, writtenBytes]
    · simp [hw, writtenBytes, output_WriteHeader_alb]
  | writeHeader s => simp [step, output_WriteHeader_alb, writtenBytes]

theorem run_facts_alb (ops : List Op) (w : ALBResponseWriter)
    (hno : ops.all (fun op => ! op.setsContentType) = true) (h : DefaultTyped w) :
    DefaultTyped (w.run ops) ∧ (w.run ops).output = w.output ++ writtenBytes ops ∧
      (w.headersWritten = true ∨ ops.any Op.commits = true →
        (w.run ops).headersWritten = true) := by
  induction ops generalizing w with
  | nil => simp [run, writtenBytes, h]
  | cons op ops ih =>
    simp only [List.all_cons, Bool.and_eq_true, Bool.not_eq_true'] at hno
    obtain ⟨h1, h2, h3⟩ := ih (w.step op) hno.2 (DefaultTyped_step_alb w op hno.1 h)
    refine ⟨h1, ?_, ?_⟩
    · have : w.run (op :: ops) = (w.step op).run ops := rfl
      rw [this, h2, output_step_alb, List.append_assoc, ← writtenBytes_cons]
    · intro hc
      apply h3
      simp only [List.any_cons, Bool.or_eq_true] at hc
      rcases hc with hc | hc | hc
      · exact Or.inl (headersWritten_step_alb w op (Or.inl hc))
      · exact Or.inl (headersWritten_step_alb w op (Or.inr hc))
      · exact Or.inr hc

end ALBResponseWriter

/-! ## The matcher: reading literals, `.*`, and the suffix property -/

namespace regexp

theorem mem_ends_concat (a b : Regexp) (p q : Pos) :
    q ∈ ends (.concat a b) p ↔ ∃ m, m ∈ ends a p ∧ q ∈ ends b m := by
  simp [ends, List.mem_flatMap]

theorem mem_ends_alternate (a b : Regexp) (p q : Pos) :
    q ∈ ends (.alternate a b) p ↔ q ∈ ends a p ∨ q ∈ ends b p := by
  simp [ends]

theorem ends_capture (r : Regexp) (p : Pos) : ends (.capture r) p = ends r p := by
  simp only [ends]

theorem mem_ends_literal (c : Char) (p q : Pos) :
    q ∈ ends (.literal c) p ↔ ∃ xs, p.2 = c :: xs ∧ q = (some c, xs) := by
  obtain ⟨prev, l⟩ := p
  cases l with
  | nil => simp [ends]
  | cons x xs =>
    by_cases hx : x = c
    · subst hx; simp [ends]
    · have hx' : ¬ c = x := fun e => hx e.symm
      simp [ends, hx, hx']

theorem prevAfter_nil (prev : Option Char) : prevAfter prev [] = prev := rfl

theorem prevAfter_cons (prev : Option Char) (c : Char) (cs : List Char) :
    prevAfter prev (c :: cs) = prevAfter (some c) cs := by
  cases cs with
  | nil => rfl
  | cons d ds =>
    simp only [prevAfter, List.getLast?_cons_cons]
    cases h : (d :: ds).getLast? with
    | none => simp at h
    | some e => rfl

theorem mem_ends_litThen (cs : List Char) (k : Regexp) (p q : Pos) :
    q ∈ ends (litThen cs k) p ↔
      ∃ rest, p.2 = cs ++ rest ∧ q ∈ ends k (prevAfter p.1 cs, rest) := by
  induction cs generalizing p with
  | nil =>
    obtain ⟨prev, l⟩ := p
    simp [litThen, prevAfter_nil]
  | cons c cs ih =>
    have hl : litThen (c :: cs) k = .concat (.literal c) (litThen cs k) := rfl
    rw [hl, mem_ends_concat]
    constructor
    · rintro ⟨m, hm, hq⟩
      obtain ⟨xs, hp, rfl⟩ := (mem_ends_literal c p m).mp hm
      obtain ⟨rest, hxs, hq'⟩ := (ih (some c, xs)).mp hq
      refine ⟨rest, ?_, ?_⟩
      · rw [hp]; simp only at hxs; rw [hxs]; rfl
      · rw [prevAfter_cons]; exact hq'
    · rintro ⟨rest, hp, hq⟩
      refine ⟨(some c, cs ++ rest), (mem_ends_literal c p _).mpr ⟨cs ++ rest, hp, rfl⟩, ?_⟩
      exact (ih (some c, cs ++ rest)).mpr ⟨rest, rfl, by rw [prevAfter_cons] at hq; exact hq⟩

theorem mem_ends_litSeq (cs : List Char) (p q : Pos) :
    q ∈ ends (litSeq cs) p ↔ ∃ rest, p.2 = cs ++ rest ∧ q = (prevAfter p.1 cs, rest) := by
  induction cs using litSeq.induct generalizing p with
  | case1 =>
    obtain ⟨prev, l⟩ := p
    simp [litSeq, ends, prevAfter_nil]
  | case2 c =>
    simp only [litSeq, mem_ends_literal, List.singleton_append]
    rfl
  | case3 c cs hne ih =>
    have hl : litSeq (c :: cs) = .concat (.literal c) (litSeq cs) := by
      cases cs with
      | nil => exact (hne rfl).elim
      | cons d ds => rfl
    rw [hl, mem_ends_concat]
    constructor
    · rintro ⟨m, hm, hq⟩
      obtain ⟨xs, hp, rfl⟩ := (mem_ends_literal c p m).mp hm
      obtain ⟨rest, hxs, hq'⟩ := (ih (some c, xs)).mp hq
      refine ⟨rest, ?_, ?_⟩
      · rw [hp]; simp only at hxs; rw [hxs]; rfl
      · rw [prevAfter_cons]; exact hq'
    · rintro ⟨rest, hp, hq⟩
      refine ⟨(some c, cs ++ rest), (mem_ends_literal c p _).mpr ⟨cs ++ rest, hp, rfl⟩, ?_⟩
      exact (ih (some c, cs ++ rest)).mpr ⟨rest, rfl, by rw [prevAfter_cons] at hq; exact hq⟩

theorem mem_starEnds_self (step : Pos → List Pos) (fuel : Nat) (p : Pos) :
    p ∈ starEnds step fuel p := by
  cases fuel <;> simp [starEnds]

theorem mem_ends_star_self (r : Regexp) (p : Pos) : p ∈ ends (.star r) p := by
  simp only [ends]; exact mem_starEnds_self _ _ _

/-- The expression `.*` reads any run of characters other than line feeds. -/
theorem mem_ends_starAny (t rest : List Char) (prev : Option Char)
    (ht : ∀ c ∈ t, c ≠ '\n') :
    (prevAfter prev t, rest) ∈ ends (.star .anyCharNotNL) (prev, t ++ rest) := by
  induction t generalizing prev with
  | nil => exact mem_ends_star_self _ _
  | cons c t ih =>
    have hc : c ≠ '\n' := ht c (List.mem_cons_self _ _)
    have ih' := ih (some c) (fun d hd => ht d (List.mem_cons_of_mem _ hd))
    simp only [ends] at ih' ⊢
    simp only [List.cons_append, List.length_cons, starEnds, List.mem_cons, List.mem_flatMap,
      List.mem_filter]
    right
    refine ⟨(some c, t ++ rest), ⟨?_, ?_⟩, ?_⟩
    · simp [ends, hc]
    · simp
    · rw [prevAfter_cons]; exact ih'

theorem starEnds_suffix (step : Pos → List Pos)
    (hstep : ∀ p q, q ∈ step p → q.2 <:+ p.2) (fuel : Nat) (p q : Pos)
    (h : q ∈ starEnds step fuel p) : q.2 <:+ p.2 := by
  induction fuel generalizing p with
  | zero =>
    simp only [starEnds, List.mem_singleton] at h
    subst h; exact List.suffix_refl _
  | succ n ih =>
    simp only [starEnds, List.mem_cons, List.mem_flatMap, List.mem_filter] at h
    rcases h with h | ⟨m, ⟨hm, _⟩, hq⟩
    · subst h; exact List.suffix_refl _
    · exact (ih m hq).trans (hstep p m hm)

/-- A match never ends before the position at which it starts: what is left
ahead at its end is a suffix of what was ahead at its start. -/
theorem ends_suffix (r : Regexp) (p q : Pos) (h : q ∈ ends r p) : q.2 <:+ p.2 := by
  induction r generalizing p q with
  | emptyMatch => simp only [ends, List.mem_singleton] at h; subst h; exact List.suffix_refl _
  | literal c =>
    obtain ⟨xs, hp, rfl⟩ := (mem_ends_literal c p q).mp h
    rw [hp]; exact List.suffix_cons _ _
  | anyCharNotNL =>
    obtain ⟨prev, l⟩ := p
    cases l with
    | nil => simp [ends] at h
    | cons x xs =>
      by_cases hx : x = '\n'
      · simp [ends, hx] at h
      · simp only [ends, hx, if_false, List.mem_singleton] at h
        rw [h]; exact List.suffix_cons _ _
  | beginText =>
    by_cases hb : p.1 = none
    · simp only [ends, hb, if_true, List.mem_singleton] at h; subst h; exact List.suffix_refl _
    · simp [ends, hb] at h
  | endText =>
    by_cases hb : p.2 = []
    · simp only [ends, hb, if_true, List.mem_singleton] at h; subst h; exact List.suffix_refl _
    · simp [ends, hb] at h
  | wordBoundary =>
    by_cases hb : atWordBoundary p = true
    · simp only [ends, hb, if_true, List.mem_singleton] at h; subst h; exact List.suffix_refl _
    · simp [ends, hb] at h
  | noWordBoundary =>
    by_cases hb : atWordBoundary p = true
    · simp [ends, hb] at h
    · simp only [ends, hb, Bool.false_eq_true, if_false, List.mem_singleton] at h
      subst h; exact List.suffix_refl _
  | capture r ih => exact ih p q (by simpa only [ends] using h)
  | star r ih =>
    simp only [ends] at h
    exact starEnds_suffix (ends r) ih _ p q h
  | plus r ih =>
    simp only [ends, List.mem_flatMap] at h
    obtain ⟨m, hm, hq⟩ := h
    exact (starEnds_suffix (ends r) ih _ m q hq).trans (ih p m hm)
  | quest r ih =>
    simp only [ends, List.mem_cons] at h
    rcases h with h | h
    · subst h; exact List.suffix_refl _
    · exact ih p q h
  | concat a b iha ihb =>
    obtain ⟨m, hm, hq⟩ := (mem_ends_concat a b p q).mp h
    exact (ihb m q hq).trans (iha p m hm)
  | alternate a b iha ihb =>
    rcases (mem_ends_alternate a b p q).mp h with h | h
    · exact iha p q h
    · exact ihb p q h

theorem head_startPositions (prev : Option Char) (l : List Char) :
    (prev, l) ∈ startPositions prev l := by
  cases l <;> simp [startPositions]

theorem snd_mem_tails_of_mem_startPositions (prev : Option Char) (l : List Char) (p : Pos)
    (h : p ∈ startPositions prev l) : p.2 ∈ l.tails := by
  induction l generalizing prev with
  | nil =>
    simp only [startPositions, List.mem_singleton] at h
    simp [h]
  | cons x xs ih =>
    simp only [startPositions, List.mem_cons] at h
    rcases h with h | h
    · simp [h]
    · simp only [List.tails, List.mem_cons]
      exact Or.inr (ih (some x) h)

/-- A match that starts at the beginning of the text makes `MatchString` true. -/
theorem MatchString_of_mem (re : Regexp) (s : String) (q : Pos)
    (h : q ∈ ends re (none, s.toList)) : MatchString re s = true := by
  unfold MatchString
  rw [List.any_eq_true]
  refine ⟨(none, s.toList), head_startPositions _ _, ?_⟩
  cases he : ends re (none, s.toList) with
  | nil => rw [he] at h; simp at h
  | cons a b => rfl

/-- `MatchString` is true only when a match starts at some tail of the text. -/
theorem exists_of_MatchString (re : Regexp) (s : String) (h : MatchString re s = true) :
    ∃ p q, p.2 ∈ s.toList.tails ∧ q ∈ ends re p := by
  unfold MatchString at h
  rw [List.any_eq_true] at h
  obtain ⟨p, hp, hne⟩ := h
  cases he : ends re p with
  | nil => rw [he] at hne; simp at hne
  | cons a b =>
    exact ⟨p, a, snd_mem_tails_of_mem_startPositions _ _ _ hp, by rw [he]; simp⟩

end regexp

/-- The matcher installed by `init`, written out. -/
theorem defaultRegexp_eq :
    defaultRegexp =
      .concat
        (.capture
          (.alternate (regexp.litThen "text/".toList (.star .anyCharNotNL))
            (.alternate (regexp.litThen "text/".toList (.star .anyCharNotNL))
              (.alternate (regexp.litSeq "application/json".toList)
                (.alternate
                  (regexp.litThen "application/".toList
                    (.concat (.star .anyCharNotNL) (regexp.litSeq "+json".toList)))
                  (.alternate (regexp.litSeq "application/xml".toList)
                    (regexp.litThen "application/".toList
                      (.concat (.star .anyCharNotNL) (regexp.litSeq "+xml".toList)))))))))
        (.concat .wordBoundary (.star .anyCharNotNL)) := by
  decide!

/-! ## The matcher computes the declarative semantics -/

namespace regexp

theorem Matches_of_mem_starEnds (r : Regexp)
    (ih : ∀ p q, q ∈ ends r p → Matches r p q) (fuel : Nat) (p q : Pos)
    (h : q ∈ starEnds (ends r) fuel p) : Matches (.star r) p q := by
  induction fuel generalizing p with
  | zero =>
    simp only [starEnds, List.mem_singleton] at h
    subst h; exact Matches.starNil r _
  | succ n ihn =>
    simp only [starEnds, List.mem_cons, List.mem_flatMap, List.mem_filter] at h
    rcases h with h | ⟨m, ⟨hm, _⟩, hq⟩
    · subst h; exact Matches.starNil r _
    · exact Matches.starStep r p m q (ih p m hm) (ihn m hq)

/-- Every end position computed by the matcher is the end of a match. -/
theorem Matches_of_mem_ends (r : Regexp) (p q : Pos) (h : q ∈ ends r p) : Matches r p q := by
  induction r generalizing p q with
  | emptyMatch =>
    simp only [ends, List.mem_singleton] at h
    subst h; exact Matches.emptyMatch _
  | literal c =>
    obtain ⟨xs, hp, rfl⟩ := (mem_ends_literal c p q).mp h
    exact Matches.literal c p xs hp
  | anyCharNotNL =>
    obtain ⟨prev, l⟩ := p
    cases l with
    | nil => simp [ends] at h
    | cons x xs =>
      by_cases hx : x = '\n'
      · simp [ends, hx] at h
      · simp only [ends, hx, if_false, List.mem_singleton] at h
        subst h; exact Matches.anyCharNotNL _ x xs rfl hx
  | beginText =>
    by_cases hb : p.1 = none
    · simp only [ends, hb, if_true, List.mem_singleton] at h
      subst h; exact Matches.beginText _ hb
    · simp [ends, hb] at h
  | endText =>
    by_cases hb : p.2 = []
    · simp only [ends, hb, if_true, List.mem_singleton] at h
      subst h; exact Matches.endText _ hb
    · simp [ends, hb] at h
  | wordBoundary =>
    by_cases hb : atWordBoundary p = true
    · simp only [ends, hb, if_true, List.mem_singleton] at h
      subst h; exact Matches.wordBoundary _ hb
    · simp [ends, hb] at h
  | noWordBoundary =>
    by_cases hb : atWordBoundary p = true
    · simp [ends, hb] at h
    · have hb' : atWordBoundary p = false := by simpa using hb
      simp only [ends, hb', Bool.false_eq_true, if_false, List.mem_singleton] at h
      subst h; exact Matches.noWordBoundary _ hb'
  | capture r ih => exact Matches.capture r p q (ih p q (by rwa [ends_capture] at h))
  | star r ih =>
    simp only [ends] at h
    exact Matches_of_mem_starEnds r ih _ p q h
  | plus r ih =>
    simp only [ends, List.mem_flatMap] at h
    obtain ⟨m, hm, hq⟩ := h
    exact Matches.plus r p m q (ih p m hm) (Matches_of_mem_starEnds r ih _ m q hq)
  | quest r ih =>
    simp only [ends, List.mem_cons] at h
    rcases h with h | h
    · subst h; exact Matches.questNone r _
    · exact Matches.questSome r p q (ih p q h)
  | concat a b iha ihb =>
    obtain ⟨m, hm, hq⟩ := (mem_ends_concat a b p q).mp h
    exact Matches.concat a b p m q (iha p m hm) (ihb m q hq)
  | alternate a b iha ihb =>
    rcases (mem_ends_alternate a b p q).mp h with h | h
    · exact Matches.alternateLeft a b p q (iha p q h)
    · exact Matches.alternateRight a b p q (ihb p q h)

theorem starEnds_succ_of_mem (step : Pos → List Pos) (fuel : Nat) (p q : Pos)
    (h : q ∈ starEnds step fuel p) : q ∈ starEnds step (fuel + 1) p := by
  induction fuel generalizing p with
  | zero =>
    simp only [starEnds, List.mem_singleton] at h
    subst h; exact mem_starEnds_self _ _ _
  | succ n ih =>
    simp only [starEnds, List.mem_cons, List.mem_flatMap, List.mem_filter] at h
    rcases h with h | ⟨m, hm, hq⟩
    · subst h; exact mem_starEnds_self _ _ _
    · have := ih m hq
      rw [starEnds]
      simp only [List.mem_cons, List.mem_flatMap, List.mem_filter]
      exact Or.inr ⟨m, hm, this⟩

theorem starEnds_mono (step : Pos → List Pos) (k k' : Nat) (hk : k ≤ k') (p q : Pos)
    (h : q ∈ starEnds step k p) : q ∈ starEnds step k' p := by
  induction hk with
  | refl => exact h
  | step _ ih => exact starEnds_succ_of_mem _ _ _ _ ih

theorem eq_of_mem_starEnds_of_length_eq (step : Pos → List Pos)
    (hstep : ∀ p q, q ∈ step p → q.2 <:+ p.2) (fuel : Nat) (p q : Pos)
    (h : q ∈ starEnds step fuel p) (hl : q.2.length = p.2.length) : q = p := by
  cases fuel with
  | zero => simpa only [starEnds, List.mem_singleton] using h
  | succ n =>
    simp only [starEnds, List.mem_cons, List.mem_flatMap, List.mem_filter] at h
    rcases h with h | ⟨m, ⟨_, hlt⟩, hq⟩
    · exact h
    · have := (starEnds_suffix step hstep n m q hq).length_le
      simp only [decide_eq_true_eq] at hlt
      omega

/-- A match that consumes no input ends at the position at which it starts. -/
theorem eq_of_mem_ends_of_length_eq (r : Regexp) (p q : Pos) (h : q ∈ ends r p)
    (hl : q.2.length = p.2.length) : q = p := by
  induction r generalizing p q with
  | emptyMatch => simpa only [ends, List.mem_singleton] using h
  | literal c =>
    obtain ⟨xs, hp, rfl⟩ := (mem_ends_literal c p q).mp h
    rw [hp] at hl; simp at hl
  | anyCharNotNL =>
    obtain ⟨prev, l⟩ := p
    cases l with
    | nil => simp [ends] at h
    | cons x xs =>
      by_cases hx : x = '\n'
      · simp [ends, hx] at h
      · simp only [ends, hx, if_false, List.mem_singleton] at h
        subst h; simp at hl
  | beginText =>
    by_cases hb : p.1 = none
    · simpa only [ends, hb, if_true, List.mem_singleton] using h
    · simp [ends, hb] at h
  | endText =>
    by_cases hb : p.2 = []
    · simpa only [ends, hb, if_true, List.mem_singleton] using h
    · simp [ends, hb] at h
  | wordBoundary =>
    by_cases hb : atWordBoundary p = true
    · simpa only [ends, hb, if_true, List.mem_singleton] using h
    · simp [ends, hb] at h
  | noWordBoundary =>
    by_cases hb : atWordBoundary p = true
    · simp [ends, hb] at h
    · simpa only [ends, hb, Bool.false_eq_true, if_false, List.mem_singleton] using h
  | capture r ih => exact ih p q (by rwa [ends_capture] at h) hl
  | star r _ =>
    simp only [ends] at h
    exact eq_of_mem_starEnds_of_length_eq (ends r) (ends_suffix r) _ p q h hl
  | plus r ih =>
    simp only [ends, List.mem_flatMap] at h
    obtain ⟨m, hm, hq⟩ := h
    have h1 := (ends_suffix r p m hm).length_le
    have h2 := (starEnds_suffix (ends r) (ends_suffix r) _ m q hq).length_le
    have hm' : m = p := ih p m hm (by omega)
    subst hm'
    exact eq_of_mem_starEnds_of_length_eq (ends r) (ends_suffix r) _ m q hq hl
  | quest r ih =>
    simp only [ends, List.mem_cons] at h
    rcases h with h | h
    · exact h
    · exact ih p q h hl
  | concat a b iha ihb =>
    obtain ⟨m, hm, hq⟩ := (mem_ends_concat a b p q).mp h
    have h1 := (ends_suffix a p m hm).length_le
    have h2 := (ends_suffix b m q hq).length_le
    have hm' : m = p := iha p m hm (by omega)
    subst hm'
    exact ihb m q hq hl
  | alternate a b iha ihb =>
    rcases (mem_ends_alternate a b p q).mp h with h | h
    · exact iha p q h hl
    · exact ihb p q h hl

theorem mem_starEnds_of_step (r : Regexp) (p m q : Pos) (hm : m ∈ ends r p)
    (hq : q ∈ starEnds (ends r) m.2.length m) : q ∈ starEnds (ends r) p.2.length p := by
  have hle := (ends_suffix r p m hm).length_le
  rcases Nat.lt_or_eq_of_le hle with hlt | heq
  · obtain ⟨n, hn⟩ : ∃ n, p.2.length = n + 1 := ⟨p.2.length - 1, by omega⟩
    rw [hn, starEnds]
    simp only [List.mem_cons, List.mem_flatMap, List.mem_filter, decide_eq_true_eq]
    exact Or.inr ⟨m, ⟨hm, hlt⟩, starEnds_mono _ _ _ (by omega) _ _ hq⟩
  · have hmp : m = p := eq_of_mem_ends_of_length_eq r p m hm heq
    subst hmp; exact hq

/-- Every match is found by the matcher: the bound on the iterations of a
repetition loses no match. -/
theorem mem_ends_of_Matches (r : Regexp) (p q : Pos) (h : Matches r p q) : q ∈ ends r p := by
  induction h with
  | emptyMatch p => simp [ends]
  | literal c p xs h => exact (mem_ends_literal c p _).mpr ⟨xs, h, rfl⟩
  | anyCharNotNL p x xs h hx =>
    obtain ⟨prev, l⟩ := p
    simp only at h
    subst h
    simp [ends, hx]
  | beginText p h => simp [ends, h]
  | endText p h => simp [ends, h]
  | wordBoundary p h => simp [ends, h]
  | noWordBoundary p h => simp [ends, h]
  | capture r p q _ ih => rw [ends_capture]; exact ih
  | starNil r p => exact mem_ends_star_self r p
  | starStep r p m q _ _ ih₁ ih₂ =>
    simp only [ends] at ih₂ ⊢
    exact mem_starEnds_of_step r p m q ih₁ ih₂
  | plus r p m q _ _ ih₁ ih₂ =>
    simp only [ends, List.mem_flatMap] at ih₂ ⊢
    exact ⟨m, ih₁, ih₂⟩
  | questNone r p => simp [ends]
  | questSome r p q _ ih => simp only [ends, List.mem_cons]; exact Or.inr ih
  | concat a b p m q _ _ ih₁ ih₂ => exact (mem_ends_concat a b p q).mpr ⟨m, ih₁, ih₂⟩
  | alternateLeft a b p q _ ih => exact (mem_ends_alternate a b p q).mpr (Or.inl ih)
  | alternateRight a b p q _ ih => exact (mem_ends_alternate a b p q).mpr (Or.inr ih)

/-- The matcher and the declarative semantics agree. -/
theorem mem_ends_iff_Matches (r : Regexp) (p q : Pos) : q ∈ ends r p ↔ Matches r p q :=
  ⟨Matches_of_mem_ends r p q, mem_ends_of_Matches r p q⟩

end regexp

/-! ## The default matcher on the default families -/

theorem isWordAt_prevAfter (prev : Option Char) (t : List Char) (hne : t ≠ [])
    (halnum : t.all Char.isAlphanum = true) :
    regexp.isWordAt (regexp.prevAfter prev t) = true := by
  cases hl : t.getLast? with
  | none => exact absurd (List.getLast?_eq_none_iff.mp hl) hne
  | some c =>
    have hc : c ∈ t := List.mem_of_getLast?_eq_some hl
    have hal : c.isAlphanum = true := (List.all_eq_true.mp halnum) c hc
    simp [regexp.prevAfter, hl, regexp.isWordAt, regexp.isWordChar, hal]

theorem ne_lf_of_all_isAlphanum (t : List Char) (halnum : t.all Char.isAlphanum = true) :
    ∀ c ∈ t, c ≠ '\n' := by
  intro c hc hlf
  have hal : c.isAlphanum = true := (List.all_eq_true.mp halnum) c hc
  rw [hlf] at hal
  exact absurd hal (by decide)

theorem toList_ne_nil_of_ne_empty (t : String) (ht : t ≠ "") : t.toList ≠ [] := by
  intro h
  apply ht
  cases t with
  | mk data =>
    have hd : data = [] := h
    rw [hd]

/-- A match of one of the alternatives that ends at a word boundary is a match of
the default matcher. -/
theorem default_match_of_alternative (s : String) (m : regexp.Pos)
    (hm : m ∈ regexp.ends
      (.alternate (regexp.litThen "text/".toList (.star .anyCharNotNL))
        (.alternate (regexp.litThen "text/".toList (.star .anyCharNotNL))
          (.alternate (regexp.litSeq "application/json".toList)
            (.alternate
              (regexp.litThen "application/".toList
                (.concat (.star .anyCharNotNL) (regexp.litSeq "+json".toList)))
              (.alternate (regexp.litSeq "application/xml".toList)
                (regexp.litThen "application/".toList
                  (.concat (.star .anyCharNotNL) (regexp.litSeq "+xml".toList))))))))
      (none, s.toList))
    (hb : regexp.atWordBoundary m = true) :
    regexp.MatchString defaultRegexp s = true := by
  apply regexp.MatchString_of_mem defaultRegexp s m
  rw [defaultRegexp_eq, regexp.mem_ends_concat]
  refine ⟨m, by rw [regexp.ends_capture]; exact hm, ?_⟩
  rw [regexp.mem_ends_concat]
  exact ⟨m, by simp [regexp.ends, hb], regexp.mem_ends_star_self _ _⟩

theorem atWordBoundary_of_word_then_nonword (prev : Option Char) (rest : List Char)
    (hp : regexp.isWordAt prev = true) (hr : regexp.isWordAt rest.head? = false) :
    regexp.atWordBoundary (prev, rest) = true := by
  simp [regexp.atWordBoundary, hp, hr]

theorem default_matches_text (t suf : String) (ht : t ≠ "")
    (halnum : t.toList.all Char.isAlphanum = true)
    (hsuf : regexp.isWordAt suf.toList.head? = false) :
    regexp.MatchString defaultRegexp ("text/" ++ t ++ suf) = true := by
  apply default_match_of_alternative _
    (regexp.prevAfter (regexp.prevAfter none "text/".toList) t.toList, suf.toList)
  · rw [regexp.mem_ends_alternate]
    left
    rw [regexp.mem_ends_litThen]
    refine ⟨t.toList ++ suf.toList, ?_, ?_⟩
    · simp [String.toList, String.data_append, List.append_assoc]
    · exact regexp.mem_ends_starAny _ _ _ (ne_lf_of_all_isAlphanum _ halnum)
  · exact atWordBoundary_of_word_then_nonword _ _
      (isWordAt_prevAfter _ _ (toList_ne_nil_of_ne_empty t ht) halnum) hsuf

theorem default_matches_literal_json (suf : String)
    (hsuf : regexp.isWordAt suf.toList.head? = false) :
    regexp.MatchString defaultRegexp ("application/json" ++ suf) = true := by
  apply default_match_of_alternative _
    (regexp.prevAfter none "application/json".toList, suf.toList)
  · rw [regexp.mem_ends_alternate, regexp.mem_ends_alternate, regexp.mem_ends_alternate]
    right; right; left
    rw [regexp.mem_ends_litSeq]
    exact ⟨suf.toList, by simp [String.toList, String.data_append], rfl⟩
  · exact atWordBoundary_of_word_then_nonword _ _ (by decide) hsuf

theorem default_matches_literal_xml (suf : String)
    (hsuf : regexp.isWordAt suf.toList.head? = false) :
    regexp.MatchString defaultRegexp ("application/xml" ++ suf) = true := by
  apply default_match_of_alternative _
    (regexp.prevAfter none "application/xml".toList, suf.toList)
  · rw [regexp.mem_ends_alternate, regexp.mem_ends_alternate, regexp.mem_ends_alternate,
      regexp.mem_ends_alternate, regexp.mem_ends_alternate]
    right; right; right; right; left
    rw [regexp.mem_ends_litSeq]
    exact ⟨suf.toList, by simp [String.toList, String.data_append], rfl⟩
  · exact atWordBoundary_of_word_then_nonword _ _ (by decide) hsuf

theorem default_matches_plus_json (t suf : String)
    (halnum : t.toList.all Char.isAlphanum = true)
    (hsuf : regexp.isWordAt suf.toList.head? = false) :
    regexp.MatchString defaultRegexp ("application/" ++ t ++ "+json" ++ suf) = true := by
  apply default_match_of_alternative _
    (regexp.prevAfter
      (regexp.prevAfter (regexp.prevAfter none "application/".toList) t.toList)
      "+json".toList, suf.toList)
  · rw [regexp.mem_ends_alternate, regexp.mem_ends_alternate, regexp.mem_ends_alternate,
      regexp.mem_ends_alternate]
    right; right; right; left
    rw [regexp.mem_ends_litThen]
    refine ⟨t.toList ++ ("+json".toList ++ suf.toList), ?_, ?_⟩
    · simp [String.toList, String.data_append, List.append_assoc]
    · rw [regexp.mem_ends_concat]
      refine ⟨_, regexp.mem_ends_starAny t.toList ("+json".toList ++ suf.toList) _
        (ne_lf_of_all_isAlphanum _ halnum), ?_⟩
      rw [regexp.mem_ends_litSeq]
      exact ⟨suf.toList, rfl, rfl⟩
  · exact atWordBoundary_of_word_then_nonword _ _ (by rfl) hsuf

theorem default_matches_plus_xml (t suf : String)
    (halnum : t.toList.all Char.isAlphanum = true)
    (hsuf : regexp.isWordAt suf.toList.head? = false) :
    regexp.MatchString defaultRegexp ("application/" ++ t ++ "+xml" ++ suf) = true := by
  apply default_match_of_alternative _
    (regexp.prevAfter
      (regexp.prevAfter (regexp.prevAfter none "application/".toList) t.toList)
      "+xml".toList, suf.toList)
  · rw [regexp.mem_ends_alternate, regexp.mem_ends_alternate, regexp.mem_ends_alternate,
      regexp.mem_ends_alternate, regexp.mem_ends_alternate]
    right; right; right; right; right
    rw [regexp.mem_ends_litThen]
    refine ⟨t.toList ++ ("+xml".toList ++ suf.toList), ?_, ?_⟩
    · simp [String.toList, String.data_append, List.append_assoc]
    · rw [regexp.mem_ends_concat]
      refine ⟨_, regexp.mem_ends_starAny t.toList ("+xml".toList ++ suf.toList) _
        (ne_lf_of_all_isAlphanum _ halnum), ?_⟩
      rw [regexp.mem_ends_litSeq]
      exact ⟨suf.toList, rfl, rfl⟩
  · exact atWordBoundary_of_word_then_nonword _ _ (by rfl) hsuf

/-! ## The default matcher matches only where a default pattern can be read -/

theorem isPrefixOf_append (cs rest : List Char) : cs.isPrefixOf (cs ++ rest) = true :=
  List.isPrefixOf_iff_prefix.mpr (List.prefix_append _ _)

theorem occursIn_of_suffix (pat l t rest : List Char) (ht : t <:+ l) (hp : t = pat ++ rest) :
    occursIn pat l = true := by
  unfold occursIn
  rw [List.any_eq_true]
  exact ⟨t, (List.mem_tails _ _).mpr ht, by rw [hp]; exact isPrefixOf_append _ _⟩

theorem occursIn_of_star_then_litSeq (pat rest : List Char) (prev : Option Char)
    (q : regexp.Pos)
    (h : q ∈ regexp.ends (.concat (.star .anyCharNotNL) (regexp.litSeq pat)) (prev, rest)) :
    occursIn pat rest = true := by
  obtain ⟨m, hm, hq⟩ := (regexp.mem_ends_concat _ _ _ _).mp h
  obtain ⟨rest', hm', _⟩ := (regexp.mem_ends_litSeq _ _ _).mp hq
  exact occursIn_of_suffix pat rest m.2 rest' (regexp.ends_suffix _ _ _ hm) hm'

/-- Where the default matcher has a match, a default pattern can be read. -/
theorem defaultPatternAt_of_match (p q : regexp.Pos)
    (h : q ∈ regexp.ends defaultRegexp p) : defaultPatternAt p.2 = true := by
  rw [defaultRegexp_eq] at h
  obtain ⟨m, hm, _⟩ := (regexp.mem_ends_concat _ _ _ _).mp h
  rw [regexp.ends_capture] at hm
  simp only [defaultPatternAt, Bool.or_eq_true, Bool.and_eq_true]
  rcases (regexp.mem_ends_alternate _ _ _ _).mp hm with h1 | hm
  · obtain ⟨rest, hp, _⟩ := (regexp.mem_ends_litThen _ _ _ _).mp h1
    rw [hp]; exact Or.inl (Or.inl (Or.inl (isPrefixOf_append _ _)))
  rcases (regexp.mem_ends_alternate _ _ _ _).mp hm with h1 | hm
  · obtain ⟨rest, hp, _⟩ := (regexp.mem_ends_litThen _ _ _ _).mp h1
    rw [hp]; exact Or.inl (Or.inl (Or.inl (isPrefixOf_append _ _)))
  rcases (regexp.mem_ends_alternate _ _ _ _).mp hm with h1 | hm
  · obtain ⟨rest, hp, _⟩ := (regexp.mem_ends_litSeq _ _ _).mp h1
    rw [hp]; exact Or.inl (Or.inl (Or.inr (isPrefixOf_append _ _)))
  rcases (regexp.mem_ends_alternate _ _ _ _).mp hm with h1 | hm
  · obtain ⟨rest, hp, hq⟩ := (regexp.mem_ends_litThen _ _ _ _).mp h1
    rw [hp]
    refine Or.inr ⟨isPrefixOf_append _ _, Or.inl ?_⟩
    have hd : ("application/".toList ++ rest).drop 12 = rest := List.drop_left' rfl
    rw [hd]
    exact occursIn_of_star_then_litSeq _ _ _ _ hq
  rcases (regexp.mem_ends_alternate _ _ _ _).mp hm with h1 | h1
  · obtain ⟨rest, hp, _⟩ := (regexp.mem_ends_litSeq _ _ _).mp h1
    rw [hp]; exact Or.inl (Or.inr (isPrefixOf_append _ _))
  · obtain ⟨rest, hp, hq⟩ := (regexp.mem_ends_litThen _ _ _ _).mp h1
    rw [hp]
    refine Or.inr ⟨isPrefixOf_append _ _, Or.inr ?_⟩
    have hd : ("application/".toList ++ rest).drop 12 = rest := List.drop_left' rfl
    rw [hd]
    exact occursIn_of_star_then_litSeq _ _ _ _ hq

theorem default_rejects_of_no_pattern (ct : String) (h : containsDefaultPattern ct = false) :
    regexp.MatchString defaultRegexp ct = false := by
  cases hm : regexp.MatchString defaultRegexp ct with
  | false => rfl
  | true =>
    obtain ⟨p, q, hp, hq⟩ := regexp.exists_of_MatchString _ _ hm
    have hc : containsDefaultPattern ct = true := by
      unfold containsDefaultPattern
      rw [List.any_eq_true]
      exact ⟨p.2, hp, defaultPatternAt_of_match p q hq⟩
    rw [h] at hc
    exact absurd hc (by decide)

/-! ## The load-balancer writer simulates the gateway writer -/

namespace ALBResponseWriter

theorem toGateway_fresh : fresh.toGateway = GatewayResponseWriter.fresh := rfl

theorem toGateway_WriteHeader (w : ALBResponseWriter) (s : Int) :
    (w.WriteHeader s).toGateway = w.toGateway.WriteHeader s := by
  unfold WriteHeader GatewayResponseWriter.WriteHeader
  by_cases h : w.headersWritten = true
  · simp [h, toGateway]
  · simp [h, toGateway]

theorem toGateway_Write (w : ALBResponseWriter) (bs : List Byte) :
    (w.Write bs).1.toGateway = (w.toGateway.Write bs).1 := by
  have hw := toGateway_WriteHeader w http.StatusOK
  unfold Write GatewayResponseWriter.Write
  by_cases h : w.headersWritten = true
  · simp [h, toGateway]
  · have h' : w.headersWritten = false := by simpa using h
    have h'' : w.toGateway.headersWritten = false := h'
    simp only [h', h'', Bool.not_false, if_true]
    rw [← hw]
    rfl

theorem toGateway_mutateHeader (w : ALBResponseWriter) (f : http.Header → http.Header) :
    (w.mutateHeader f).toGateway = w.toGateway.mutateHeader f := by
  rw [mutateHeader_eq_alb, GatewayResponseWriter.mutateHeader_eq]
  rfl

theorem toGateway_step (w : ALBResponseWriter) (op : Op) :
    (w.step op).toGateway = w.toGateway.step op := by
  cases op with
  | setHeader k vs => exact toGateway_mutateHeader w _
  | delHeader k => exact toGateway_mutateHeader w _
  | write bs => exact toGateway_Write w bs
  | writeHeader s => exact toGateway_WriteHeader w s

theorem toGateway_run (ops : List Op) (w : ALBResponseWriter) :
    (w.run ops).toGateway = w.toGateway.run ops := by
  induction ops generalizing w with
  | nil => rfl
  | cons op ops ih =>
    have h1 : w.run (op :: ops) = (w.step op).run ops := rfl
    have h2 : w.toGateway.run (op :: ops) = (w.toGateway.step op).run ops := rfl
    rw [h1, h2, ih, toGateway_step]

theorem toGateway_finish (re : regexp.Regexp) (w : ALBResponseWriter) :
    (finish re w).toGateway = GatewayResponseWriter.finish re w.toGateway := rfl

end ALBResponseWriter

/-! ## Runs: what is kept after the commit, and before it -/

namespace GatewayResponseWriter

theorem run_cons (w : GatewayResponseWriter) (op : Op) (ops : List Op) :
    w.run (op :: ops) = (w.step op).run ops := rfl

theorem run_append (w : GatewayResponseWriter) (ops₁ ops₂ : List Op) :
    w.run (ops₁ ++ ops₂) = (w.run ops₁).run ops₂ := by
  unfold run; exact List.foldl_append _ _ _ _

theorem step_of_committed (w : GatewayResponseWriter) (op : Op)
    (h : w.headersWritten = true) :
    (w.step op).response = w.response ∧ (w.step op).headersWritten = true := by
  cases op with
  | setHeader k vs => simp [step, mutateHeader_eq, h]
  | delHeader k => simp [step, mutateHeader_eq, h]
  | write bs => simp [step, Write, h]
  | writeHeader s => simp [step, WriteHeader, h]

/-- After the commit no call changes the response under construction. -/
theorem run_of_committed (ops : List Op) (w : GatewayResponseWriter)
    (h : w.headersWritten = true) :
    (w.run ops).response = w.response ∧ (w.run ops).headersWritten = true := by
  induction ops generalizing w with
  | nil => exact ⟨rfl, h⟩
  | cons op ops ih =>
    obtain ⟨h1, h2⟩ := step_of_committed w op h
    obtain ⟨h3, h4⟩ := ih (w.step op) h2
    rw [run_cons]
    exact ⟨h3.trans h1, h4⟩

theorem step_of_not_commits (w : GatewayResponseWriter) (op : Op)
    (hop : op.commits = false) :
    (w.step op).response = w.response ∧ (w.step op).output = w.output ∧
      (w.step op).headersWritten = w.headersWritten := by
  cases op with
  | setHeader k vs => simp [step, mutateHeader_eq]
  | delHeader k => simp [step, mutateHeader_eq]
  | write bs => simp [Op.commits] at hop
  | writeHeader s => simp [Op.commits] at hop

/-- Header mutations alone change nothing but the header table. -/
theorem run_of_not_commits (ops : List Op) (w : GatewayResponseWriter)
    (hops : ops.any Op.commits = false) :
    (w.run ops).response = w.response ∧ (w.run ops).output = w.output ∧
      (w.run ops).headersWritten = w.headersWritten := by
  induction ops generalizing w with
  | nil => exact ⟨rfl, rfl, rfl⟩
  | cons op ops ih =>
    simp only [List.any_cons, Bool.or_eq_false_iff] at hops
    obtain ⟨h1, h2, h3⟩ := step_of_not_commits w op hops.1
    obtain ⟨h4, h5, h6⟩ := ih (w.step op) hops.2
    rw [run_cons]
    exact ⟨h4.trans h1, h5.trans h2, h6.trans h3⟩

theorem wellFormed_step (w : GatewayResponseWriter) (op : Op)
    (h : GoMap.WellFormed (w.headers.getD [])) :
    GoMap.WellFormed ((w.step op).headers.getD []) := by
  cases op with
  | setHeader k vs =>
    simp only [step, mutateHeader_eq, Option.getD_some]
    exact GoMap.WellFormed_set _ _ _ h
  | delHeader k =>
    simp only [step, mutateHeader_eq, Option.getD_some]
    exact GoMap.WellFormed_delete _ _ h
  | write bs =>
    unfold step Write
    by_cases hw : w.headersWritten = true
    · simpa [hw] using h
    · simpa [hw, headers_WriteHeader] using h
  | writeHeader s =>
    simp only [step, headers_WriteHeader]; exact h

/-- The names of the header table stay distinct along a run. -/
theorem wellFormed_run (ops : List Op) (w : GatewayResponseWriter)
    (h : GoMap.WellFormed (w.headers.getD [])) :
    GoMap.WellFormed ((w.run ops).headers.getD []) := by
  induction ops generalizing w with
  | nil => exact h
  | cons op ops ih => rw [run_cons]; exact ih _ (wellFormed_step w op h)

theorem step_of_commits (w : GatewayResponseWriter) (op : Op)
    (hop : op.commits = true) (hw : w.headersWritten = false) :
    (w.step op).response.Headers = finalHeaders w.headers ∧
      (w.step op).headersWritten = true := by
  cases op with
  | setHeader k vs => simp [Op.commits] at hop
  | delHeader k => simp [Op.commits] at hop
  | write bs => simp [step, Write, WriteHeader, hw]
  | writeHeader s => simp [step, WriteHeader, hw]

end GatewayResponseWriter

theorem exists_first_commit (ops : List Op) (h : ops.any Op.commits = true) :
    ∃ pre c post, ops = pre ++ c :: post ∧ pre.any Op.commits = false ∧
      c.commits = true := by
  induction ops with
  | nil => simp at h
  | cons op ops ih =>
    by_cases hop : op.commits = true
    · exact ⟨[], op, ops, rfl, rfl, hop⟩
    · have hop' : op.commits = false := by simpa using hop
      simp only [List.any_cons, hop', Bool.false_or] at h
      obtain ⟨pre, c, post, he, hpre, hc⟩ := ih h
      refine ⟨op :: pre, c, post, by rw [he]; rfl, ?_, hc⟩
      simp [List.any_cons, hop', hpre]

theorem get?_finalHeaders_contentType (headers : Option http.Header)
    (hwf : GoMap.WellFormed (headers.getD [])) :
    (finalHeaders headers).get? "Content-Type" =
      some (contentTypeAtCommit (headers.getD [])) := by
  unfold finalHeaders contentTypeAtCommit
  rw [get?_withDefaultContentType_self, get?_collapseHeaders _ hwf]
  cases lastValue (headers.getD []) "Content-Type" with
  | none => rfl
  | some v =>
    by_cases hv : v = ""
    · simp [hv]
    · simp [hv]

theorem contentTypeAtCommit_ne_empty (table : http.Header) :
    contentTypeAtCommit table ≠ "" := by
  unfold contentTypeAtCommit
  cases lastValue table "Content-Type" with
  | none => decide
  | some v =>
    by_cases hv : v = ""
    · simp only [hv, if_true]; decide
    · simp only [hv, if_false]; exact hv

/-! ## The committed content type of a run from a fresh writer -/

theorem toGateway_run_fresh (ops : List Op) :
    (ALBResponseWriter.fresh.run ops).toGateway = GatewayResponseWriter.fresh.run ops := by
  rw [ALBResponseWriter.toGateway_run, ALBResponseWriter.toGateway_fresh]

theorem any_commits_of_committed (ops : List Op)
    (h : (GatewayResponseWriter.fresh.run ops).headersWritten = true) :
    ops.any Op.commits = true := by
  cases hc : ops.any Op.commits with
  | true => rfl
  | false =>
    have := (GatewayResponseWriter.run_of_not_commits ops GatewayResponseWriter.fresh hc).2.2
    rw [this] at h
    exact absurd h (by decide)

/-- A run from a fresh writer that has a first committing call `c`, after the
calls `pre`, carries the content type committed for the table left by `pre`. -/
theorem committed_contentType_of_split (pre post : List Op) (c : Op)
    (hpre : pre.any Op.commits = false) (hc : c.commits = true) :
    (GatewayResponseWriter.fresh.run (pre ++ c :: post)).response.Headers.get? "Content-Type" =
      some (contentTypeAtCommit ((GatewayResponseWriter.fresh.run pre).headers.getD [])) := by
  have hw : (GatewayResponseWriter.fresh.run pre).headersWritten = false :=
    (GatewayResponseWriter.run_of_not_commits pre GatewayResponseWriter.fresh hpre).2.2
  have hwf : GoMap.WellFormed ((GatewayResponseWriter.fresh.run pre).headers.getD []) :=
    GatewayResponseWriter.wellFormed_run pre GatewayResponseWriter.fresh GoMap.WellFormed_nil
  obtain ⟨h1, h2⟩ := GatewayResponseWriter.step_of_commits _ c hc hw
  obtain ⟨h3, _⟩ := GatewayResponseWriter.run_of_committed post _ h2
  rw [GatewayResponseWriter.run_append, GatewayResponseWriter.run_cons, h3, h1]
  exact get?_finalHeaders_contentType _ hwf

/-! ## The claims -/

/-- C1, counterexample: with the matcher that `SetTextContentTypes` installs for
the one pattern `^$)|(^$` (whatever `Compile` does outside the modelled
fragment), the content type `application/octet-stream` is not text, yet setting
it on a fresh writer, writing no chunk and finishing gives
`IsBase64Encoded = false`, for both writers. -/
theorem C1_counterexample_no_chunk :
    (∀ outside : String → Except regexp.ErrorCode regexp.Regexp,
      SetTextContentTypes (regexp.Compile outside) ["^$)|(^$"] Globals.zero =
        (.returned none, ⟨[], some emptyOnlyRegexp⟩)) ∧
      "application/octet-stream" ≠ "" ∧
      regexp.MatchString emptyOnlyRegexp "application/octet-stream" = false ∧
      (GatewayResponseWriter.finish emptyOnlyRegexp
        ((GatewayResponseWriter.fresh.mutateHeader
          (fun h => h.set "Content-Type" ["application/octet-stream"])).writeAll
            [])).response.IsBase64Encoded = false ∧
      (ALBResponseWriter.finish emptyOnlyRegexp
        ((ALBResponseWriter.fresh.mutateHeader
          (fun h => h.set "Content-Type" ["application/octet-stream"])).writeAll
            [])).response.IsBase64Encoded = false :=
  ⟨fun outside => SetTextContentTypes_emptyOnly outside Globals.zero, by decide, by decide!,
    by decide!, by decide!⟩

/-- C1, amended: for every matcher `re` and every non-empty content type `ct` that
`re` does not accept, setting `Content-Type` to `ct` on a fresh writer, writing
the chunks and finishing gives `IsBase64Encoded = true` and a body that is the
standard base64 encoding of the concatenated chunks, which decodes to exactly
those bytes, provided at least one chunk is written or `re` also rejects the
empty content type (as the default matcher does); for both writers. -/
theorem C1_binary_round_trip (re : regexp.Regexp) (ct : String) (chunks : List (List Byte))
    (hct : ct ≠ "") (hbin : regexp.MatchString re ct = false)
    (hcommit : chunks ≠ [] ∨ regexp.MatchString re "" = false) :
    (let r := (GatewayResponseWriter.finish re
        ((GatewayResponseWriter.fresh.mutateHeader
          (fun h => h.set "Content-Type" [ct])).writeAll chunks)).response
     r.IsBase64Encoded = true ∧ r.Body = base64.EncodeToString chunks.flatten ∧
       base64.DecodeString r.Body = some chunks.flatten) ∧
    (let r := (ALBResponseWriter.finish re
        ((ALBResponseWriter.fresh.mutateHeader
          (fun h => h.set "Content-Type" [ct])).writeAll chunks)).response
     r.IsBase64Encoded = true ∧ r.Body = base64.EncodeToString chunks.flatten ∧
       base64.DecodeString r.Body = some chunks.flatten) := by
  cases chunks with
  | nil =>
    have hempty : regexp.MatchString re "" = false := by
      rcases hcommit with h | h
      · exact absurd rfl h
      · exact h
    simp [GatewayResponseWriter.finish, GatewayResponseWriter.writeAll,
      GatewayResponseWriter.mutateHeader, GatewayResponseWriter.Header,
      GatewayResponseWriter.fresh, ALBResponseWriter.finish, ALBResponseWriter.writeAll,
      ALBResponseWriter.mutateHeader, ALBResponseWriter.Header, ALBResponseWriter.fresh,
      GoMap.get?_nil, hempty, base64.DecodeString_EncodeToString]
  | cons c cs =>
    rw [GatewayResponseWriter.writeAll_cons_of_fresh _ _ _ rfl,
      ALBResponseWriter.writeAll_cons_of_fresh_alb _ _ _ rfl]
    simp [GatewayResponseWriter.finish, GatewayResponseWriter.WriteHeader,
      GatewayResponseWriter.mutateHeader, GatewayResponseWriter.Header,
      GatewayResponseWriter.fresh, ALBResponseWriter.finish, ALBResponseWriter.WriteHeader,
      ALBResponseWriter.mutateHeader, ALBResponseWriter.Header, ALBResponseWriter.fresh,
      GoMap.set, finalHeaders_contentType ct hct, GoMap.get?_cons, hbin,
      base64.DecodeString_EncodeToString]

/-- C1, witness: the amended round trip at the default matcher, the content type
`application/octet-stream` and the chunks `[0xFF, 0xD8]`, `[0xFF]`. -/
theorem C1_binary_round_trip_witness :
    ("application/octet-stream" ≠ "" ∧
      regexp.MatchString defaultRegexp "application/octet-stream" = false ∧
      (([[255, 216], [255]] : List (List Byte)) ≠ [] ∨
        regexp.MatchString defaultRegexp "" = false)) ∧
    ((let r := (GatewayResponseWriter.finish defaultRegexp
        ((GatewayResponseWriter.fresh.mutateHeader
          (fun h => h.set "Content-Type" ["application/octet-stream"])).writeAll
            [[255, 216], [255]])).response
     r.IsBase64Encoded = true ∧ r.Body = base64.EncodeToString [[255, 216], [255]].flatten ∧
       base64.DecodeString r.Body = some [[255, 216], [255]].flatten) ∧
    (let r := (ALBResponseWriter.finish defaultRegexp
        ((ALBResponseWriter.fresh.mutateHeader
          (fun h => h.set "Content-Type" ["application/octet-stream"])).writeAll
            [[255, 216], [255]])).response
     r.IsBase64Encoded = true ∧ r.Body = base64.EncodeToString [[255, 216], [255]].flatten ∧
       base64.DecodeString r.Body = some [[255, 216], [255]].flatten)) :=
  ⟨⟨by decide, by decide!, Or.inl (by decide)⟩,
    C1_binary_round_trip defaultRegexp "application/octet-stream" [[255, 216], [255]]
      (by decide) (by decide!) (Or.inl (by decide))⟩

/-- C2: text round trip under the default configuration: on a fresh writer whose
header table holds `Content-Type: application/json`, `WriteHeader(s)`, writing
the chunks and finishing gives `StatusCode = s`, the headers
`{Content-Type: application/json}`, `IsBase64Encoded = false` and a body equal
to the concatenation of the chunks, for every status and chunk sequence and for
both writers. -/
theorem C2_text_round_trip (s : Int) (chunks : List (List Byte)) :
    (let r := (GatewayResponseWriter.finish defaultRegexp
        (((GatewayResponseWriter.fresh.mutateHeader
          (fun h => h.set "Content-Type" ["application/json"])).WriteHeader s).writeAll
            chunks)).response
     r.StatusCode = s ∧ r.Headers = [("Content-Type", "application/json")] ∧
       r.IsBase64Encoded = false ∧ r.Body = chunks.flatten) ∧
    (let r := (ALBResponseWriter.finish defaultRegexp
        (((ALBResponseWriter.fresh.mutateHeader
          (fun h => h.set "Content-Type" ["application/json"])).WriteHeader s).writeAll
            chunks)).response
     r.StatusCode = s ∧ r.Headers = [("Content-Type", "application/json")] ∧
       r.IsBase64Encoded = false ∧ r.Body = chunks.flatten) := by
  rw [GatewayResponseWriter.writeAll_of_committed _ _
      (GatewayResponseWriter.headersWritten_WriteHeader _ _),
    ALBResponseWriter.writeAll_of_committed_alb _ _
      (ALBResponseWriter.headersWritten_WriteHeader_alb _ _)]
  simp [GatewayResponseWriter.finish, GatewayResponseWriter.WriteHeader,
    GatewayResponseWriter.mutateHeader, GatewayResponseWriter.Header,
    GatewayResponseWriter.fresh, ALBResponseWriter.finish, ALBResponseWriter.WriteHeader,
    ALBResponseWriter.mutateHeader, ALBResponseWriter.Header, ALBResponseWriter.fresh,
    GoMap.set, finalHeaders_contentType "application/json" (by decide), GoMap.get?_cons,
    default_matches_json]

/-- C2, scenario of the specification: status 201, `Content-Type:
application/json`, body `{"ok":true}`. -/
theorem C2_text_round_trip_scenario :
    (let r := (GatewayResponseWriter.finish defaultRegexp
        (((GatewayResponseWriter.fresh.mutateHeader
          (fun h => h.set "Content-Type" ["application/json"])).WriteHeader 201).writeAll
            [asciiBytes "\x7b\"ok\":true\x7d"])).response
     r.StatusCode = 201 ∧ r.Headers = [("Content-Type", "application/json")] ∧
       r.IsBase64Encoded = false ∧ r.Body = [asciiBytes "\x7b\"ok\":true\x7d"].flatten) ∧
    (let r := (ALBResponseWriter.finish defaultRegexp
        (((ALBResponseWriter.fresh.mutateHeader
          (fun h => h.set "Content-Type" ["application/json"])).WriteHeader 201).writeAll
            [asciiBytes "\x7b\"ok\":true\x7d"])).response
     r.StatusCode = 201 ∧ r.Headers = [("Content-Type", "application/json")] ∧
       r.IsBase64Encoded = false ∧ r.Body = [asciiBytes "\x7b\"ok\":true\x7d"].flatten) :=
  C2_text_round_trip 201 [asciiBytes "\x7b\"ok\":true\x7d"]

/-- C3: first write implies 200: on a writer whose headers are not committed,
whatever its header table, `Write(bs)` followed by `finish` gives
`StatusCode = 200`, and the committed headers are the collapse (with the default
`Content-Type` that the commit injects) of the header table as it stood at that
`Write`; for both writers. -/
theorem C3_first_write_implies_200 (re : regexp.Regexp) (wg : GatewayResponseWriter)
    (wa : ALBResponseWriter) (bs : List Byte)
    (hg : wg.headersWritten = false) (ha : wa.headersWritten = false) :
    ((GatewayResponseWriter.finish re (wg.Write bs).1).response.StatusCode = 200 ∧
      (GatewayResponseWriter.finish re (wg.Write bs).1).response.Headers =
        withDefaultContentType (collapseHeaders (wg.headers.getD []))) ∧
    ((ALBResponseWriter.finish re (wa.Write bs).1).response.StatusCode = 200 ∧
      (ALBResponseWriter.finish re (wa.Write bs).1).response.Headers =
        withDefaultContentType (collapseHeaders (wa.headers.getD []))) := by
  simp [GatewayResponseWriter.finish, GatewayResponseWriter.Write,
    GatewayResponseWriter.WriteHeader, ALBResponseWriter.finish, ALBResponseWriter.Write,
    ALBResponseWriter.WriteHeader, hg, ha, finalHeaders, http.StatusOK]

/-- C3, witness: a fresh writer whose header table holds `X-A: [1, 2]` commits
200 and the headers `X-A: 2` and the default `Content-Type` on its first
`Write`. -/
theorem C3_first_write_implies_200_witness :
    ((GatewayResponseWriter.fresh.mutateHeader (fun h => h.set "X-A" ["1", "2"])).headersWritten
        = false ∧
      (ALBResponseWriter.fresh.mutateHeader (fun h => h.set "X-A" ["1", "2"])).headersWritten
        = false) ∧
    (((GatewayResponseWriter.finish defaultRegexp
        ((GatewayResponseWriter.fresh.mutateHeader (fun h => h.set "X-A" ["1", "2"])).Write
          [104, 105]).1).response.StatusCode = 200 ∧
      (GatewayResponseWriter.finish defaultRegexp
        ((GatewayResponseWriter.fresh.mutateHeader (fun h => h.set "X-A" ["1", "2"])).Write
          [104, 105]).1).response.Headers =
        withDefaultContentType (collapseHeaders
          ((GatewayResponseWriter.fresh.mutateHeader
            (fun h => h.set "X-A" ["1", "2"])).headers.getD []))) ∧
    ((ALBResponseWriter.finish defaultRegexp
        ((ALBResponseWriter.fresh.mutateHeader (fun h => h.set "X-A" ["1", "2"])).Write
          [104, 105]).1).response.StatusCode = 200 ∧
      (ALBResponseWriter.finish defaultRegexp
        ((ALBResponseWriter.fresh.mutateHeader (fun h => h.set "X-A" ["1", "2"])).Write
          [104, 105]).1).response.Headers =
        withDefaultContentType (collapseHeaders
          ((ALBResponseWriter.fresh.mutateHeader
            (fun h => h.set "X-A" ["1", "2"])).headers.getD [])))) :=
  ⟨⟨by decide, by decide⟩,
    C3_first_write_implies_200 defaultRegexp
      (GatewayResponseWriter.fresh.mutateHeader (fun h => h.set "X-A" ["1", "2"]))
      (ALBResponseWriter.fresh.mutateHeader (fun h => h.set "X-A" ["1", "2"]))
      [104, 105] (by decide) (by decide)⟩

/-- C4: `WriteHeader` is first-call-wins: on a writer whose headers are committed,
`WriteHeader(s)` returns the state unchanged (every field, for both writers);
and on a fresh writer with any header table, `WriteHeader(s1)` followed by
`WriteHeader(s2)` leaves `StatusCode = s1`. -/
theorem C4_WriteHeader_first_call_wins (wg : GatewayResponseWriter) (wa : ALBResponseWriter)
    (s s1 s2 : Int) (table : Option http.Header)
    (hg : wg.headersWritten = true) (ha : wa.headersWritten = true) :
    wg.WriteHeader s = wg ∧ wa.WriteHeader s = wa ∧
    ((({ GatewayResponseWriter.fresh with headers := table }).WriteHeader s1).WriteHeader
      s2).response.StatusCode = s1 ∧
    ((({ ALBResponseWriter.fresh with headers := table }).WriteHeader s1).WriteHeader
      s2).response.StatusCode = s1 := by
  refine ⟨GatewayResponseWriter.WriteHeader_of_committed wg s hg,
    ALBResponseWriter.WriteHeader_of_committed_alb wa s ha, ?_, ?_⟩
  · rw [GatewayResponseWriter.WriteHeader_of_committed _ s2
      (GatewayResponseWriter.headersWritten_WriteHeader _ _)]
    simp [GatewayResponseWriter.WriteHeader, GatewayResponseWriter.fresh]
  · rw [ALBResponseWriter.WriteHeader_of_committed_alb _ s2
      (ALBResponseWriter.headersWritten_WriteHeader_alb _ _)]
    simp [ALBResponseWriter.WriteHeader, ALBResponseWriter.fresh]

/-- C4, witness: writers committed by `WriteHeader(201)` ignore `WriteHeader(500)`,
and `WriteHeader(404)` then `WriteHeader(200)` on a fresh writer keeps 404. -/
theorem C4_WriteHeader_first_call_wins_witness :
    ((GatewayResponseWriter.fresh.WriteHeader 201).headersWritten = true ∧
      (ALBResponseWriter.fresh.WriteHeader 201).headersWritten = true) ∧
    ((GatewayResponseWriter.fresh.WriteHeader 201).WriteHeader 500 =
        GatewayResponseWriter.fresh.WriteHeader 201 ∧
      (ALBResponseWriter.fresh.WriteHeader 201).WriteHeader 500 =
        ALBResponseWriter.fresh.WriteHeader 201 ∧
      ((({ GatewayResponseWriter.fresh with headers := none }).WriteHeader 404).WriteHeader
        200).response.StatusCode = 404 ∧
      ((({ ALBResponseWriter.fresh with headers := none }).WriteHeader 404).WriteHeader
        200).response.StatusCode = 404) :=
  ⟨⟨by decide, by decide⟩,
    C4_WriteHeader_first_call_wins (GatewayResponseWriter.fresh.WriteHeader 201)
      (ALBResponseWriter.fresh.WriteHeader 201) 500 404 200 none (by decide) (by decide)⟩

/-- C5, counterexample: the header table `{Content-Type: [""]}` gives the name
`Content-Type` one value, whose last value is the empty string, but the
committed mapping maps `Content-Type` to `text/plain; charset=utf-8`, for both
writers. -/
theorem C5_counterexample_empty_content_type :
    ((GatewayResponseWriter.fresh.mutateHeader
        (fun h => h.set "Content-Type" [""])).headers.getD []).get? "Content-Type" =
        some [""] ∧
      ((GatewayResponseWriter.fresh.mutateHeader
        (fun h => h.set "Content-Type" [""])).WriteHeader 200).response.Headers.get?
          "Content-Type" = some "text/plain; charset=utf-8" ∧
      ((ALBResponseWriter.fresh.mutateHeader
        (fun h => h.set "Content-Type" [""])).WriteHeader 200).response.Headers.get?
          "Content-Type" = some "text/plain; charset=utf-8" ∧
      [""].getLast? = some "" ∧ "text/plain; charset=utf-8" ≠ "" := by
  decide

/-- C5, amended: header collapsing is last-value-wins: at the commit of a writer
whose header table has distinct names, the committed mapping reads, at every
name other than `Content-Type`, the last value of that name (nothing when the
name is absent or has no value); at `Content-Type` it reads the last value when
that is non-empty and the default `text/plain; charset=utf-8` otherwise; for
both writers. -/
theorem C5_header_collapse_last_value_wins (wg : GatewayResponseWriter)
    (wa : ALBResponseWriter) (s : Int) (k : String)
    (hg : wg.headersWritten = false) (ha : wa.headersWritten = false)
    (hwg : GoMap.WellFormed (wg.headers.getD []))
    (hwa : GoMap.WellFormed (wa.headers.getD [])) :
    (wg.WriteHeader s).response.Headers.get? k =
        (if k = "Content-Type" then
          (match lastValue (wg.headers.getD []) k with
            | some v => if v = "" then some "text/plain; charset=utf-8" else some v
            | none => some "text/plain; charset=utf-8")
        else lastValue (wg.headers.getD []) k) ∧
    (wa.WriteHeader s).response.Headers.get? k =
        (if k = "Content-Type" then
          (match lastValue (wa.headers.getD []) k with
            | some v => if v = "" then some "text/plain; charset=utf-8" else some v
            | none => some "text/plain; charset=utf-8")
        else lastValue (wa.headers.getD []) k) := by
  have hG : (wg.WriteHeader s).response.Headers = finalHeaders wg.headers := by
    simp [GatewayResponseWriter.WriteHeader, hg]
  have hA : (wa.WriteHeader s).response.Headers = finalHeaders wa.headers := by
    simp [ALBResponseWriter.WriteHeader, ha]
  rw [hG, hA]
  unfold finalHeaders
  by_cases hk : k = "Content-Type"
  · subst hk
    simp only [if_true, get?_withDefaultContentType_self,
      get?_collapseHeaders _ hwg, get?_collapseHeaders _ hwa, and_self]
  · simp only [hk, if_false, get?_withDefaultContentType_of_ne _ hk,
      get?_collapseHeaders _ hwg, get?_collapseHeaders _ hwa, and_self]

/-- C5, witness: the table `{X-A: [1, 2], X-B: [], Content-Type: [""]}` read at
`X-A`. -/
theorem C5_header_collapse_last_value_wins_witness :
    (({ GatewayResponseWriter.fresh with
        headers := some [("X-A", ["1", "2"]), ("X-B", []), ("Content-Type", [""])] }
          ).headersWritten = false ∧
      ({ ALBResponseWriter.fresh with
        headers := some [("X-A", ["1", "2"]), ("X-B", []), ("Content-Type", [""])] }
          ).headersWritten = false ∧
      GoMap.WellFormed
        ([("X-A", ["1", "2"]), ("X-B", []), ("Content-Type", [""])] : http.Header)) ∧
    (({ GatewayResponseWriter.fresh with
        headers := some [("X-A", ["1", "2"]), ("X-B", []), ("Content-Type", [""])] }
          ).WriteHeader 200).response.Headers.get? "X-A" = some "2" ∧
    (({ ALBResponseWriter.fresh with
        headers := some [("X-A", ["1", "2"]), ("X-B", []), ("Content-Type", [""])] }
          ).WriteHeader 200).response.Headers.get? "X-A" = some "2" :=
  ⟨⟨by decide, by decide, by unfold GoMap.WellFormed; decide⟩,
    C5_header_collapse_last_value_wins
      { GatewayResponseWriter.fresh with
        headers := some [("X-A", ["1", "2"]), ("X-B", []), ("Content-Type", [""])] }
      { ALBResponseWriter.fresh with
        headers := some [("X-A", ["1", "2"]), ("X-B", []), ("Content-Type", [""])] }
      200 "X-A" (by decide) (by decide) (by unfold GoMap.WellFormed; decide)
      (by unfold GoMap.WellFormed; decide)⟩

/-- C6, counterexample: the empty call sequence on a fresh writer, finished under
the default configuration, has no `Content-Type` header and
`IsBase64Encoded = true`, for both writers. -/
theorem C6_counterexample_empty_sequence :
    (GatewayResponseWriter.finish defaultRegexp
        (GatewayResponseWriter.fresh.run [])).response.Headers.get? "Content-Type" = none ∧
      (GatewayResponseWriter.finish defaultRegexp
        (GatewayResponseWriter.fresh.run [])).response.IsBase64Encoded = true ∧
      (ALBResponseWriter.finish defaultRegexp
        (ALBResponseWriter.fresh.run [])).response.Headers.get? "Content-Type" = none ∧
      (ALBResponseWriter.finish defaultRegexp
        (ALBResponseWriter.fresh.run [])).response.IsBase64Encoded = true := by
  decide!

/-- C6, amended: default content type: for every sequence of header mutations,
`Write` and `WriteHeader` calls on a fresh writer that never assigns
`Content-Type` and contains at least one `Write` or `WriteHeader`, the response
finished under the default configuration has `Content-Type` equal to
`text/plain; charset=utf-8`, `IsBase64Encoded = false` and the written bytes,
unencoded, as body; for both writers. -/
theorem C6_default_content_type (ops : List Op)
    (hno : ops.all (fun op => ! op.setsContentType) = true)
    (hcommit : ops.any Op.commits = true) :
    (let r := (GatewayResponseWriter.finish defaultRegexp
        (GatewayResponseWriter.fresh.run ops)).response
     r.Headers.get? "Content-Type" = some "text/plain; charset=utf-8" ∧
       r.IsBase64Encoded = false ∧ r.Body = writtenBytes ops) ∧
    (let r := (ALBResponseWriter.finish defaultRegexp
        (ALBResponseWriter.fresh.run ops)).response
     r.Headers.get? "Content-Type" = some "text/plain; charset=utf-8" ∧
       r.IsBase64Encoded = false ∧ r.Body = writtenBytes ops) := by
  obtain ⟨g1, g2, g3⟩ := GatewayResponseWriter.run_facts ops GatewayResponseWriter.fresh hno
    ⟨rfl, fun h => absurd h (by decide)⟩
  obtain ⟨a1, a2, a3⟩ := ALBResponseWriter.run_facts_alb ops ALBResponseWriter.fresh hno
    ⟨rfl, fun h => absurd h (by decide)⟩
  have hg := g1.2 (g3 (Or.inr hcommit))
  have ha := a1.2 (a3 (Or.inr hcommit))
  have g2' : (GatewayResponseWriter.fresh.run ops).output = writtenBytes ops := by
    rw [g2]; rfl
  have a2' : (ALBResponseWriter.fresh.run ops).output = writtenBytes ops := by
    rw [a2]; rfl
  simp [GatewayResponseWriter.finish, ALBResponseWriter.finish, hg, ha, g2', a2',
    default_matches_textPlain]

/-- C6, witness: set `X-A`, write two bytes, call `WriteHeader(404)`, delete
`X-A`, write one more byte. -/
theorem C6_default_content_type_witness :
    (([Op.setHeader "X-A" ["1"], Op.write [104, 105], Op.writeHeader 404, Op.delHeader "X-A",
        Op.write [33]].all (fun op => ! op.setsContentType) = true) ∧
      ([Op.setHeader "X-A" ["1"], Op.write [104, 105], Op.writeHeader 404, Op.delHeader "X-A",
        Op.write [33]].any Op.commits = true)) ∧
    ((let r := (GatewayResponseWriter.finish defaultRegexp
        (GatewayResponseWriter.fresh.run
          [Op.setHeader "X-A" ["1"], Op.write [104, 105], Op.writeHeader 404,
            Op.delHeader "X-A", Op.write [33]])).response
     r.Headers.get? "Content-Type" = some "text/plain; charset=utf-8" ∧
       r.IsBase64Encoded = false ∧
       r.Body = writtenBytes [Op.setHeader "X-A" ["1"], Op.write [104, 105],
         Op.writeHeader 404, Op.delHeader "X-A", Op.write [33]]) ∧
    (let r := (ALBResponseWriter.finish defaultRegexp
        (ALBResponseWriter.fresh.run
          [Op.setHeader "X-A" ["1"], Op.write [104, 105], Op.writeHeader 404,
            Op.delHeader "X-A", Op.write [33]])).response
     r.Headers.get? "Content-Type" = some "text/plain; charset=utf-8" ∧
       r.IsBase64Encoded = false ∧
       r.Body = writtenBytes [Op.setHeader "X-A" ["1"], Op.write [104, 105],
         Op.writeHeader 404, Op.delHeader "X-A", Op.write [33]])) :=
  ⟨⟨by decide, by decide⟩,
    C6_default_content_type
      [Op.setHeader "X-A" ["1"], Op.write [104, 105], Op.writeHeader 404, Op.delHeader "X-A",
        Op.write [33]] (by decide) (by decide)⟩

/-- C7: the encoding decision looks only at the declared content type: writing any
bytes to a fresh writer (no status, no headers) and finishing under the default
configuration gives status 200, the default `Content-Type`, no base64 flag and
the written bytes, unencoded, as body; for both writers. -/
theorem C7_default_type_means_plain_body (bs : List Byte) :
    (let r := (GatewayResponseWriter.finish defaultRegexp
        (GatewayResponseWriter.fresh.Write bs).1).response
     r.StatusCode = 200 ∧
       r.Headers.get? "Content-Type" = some "text/plain; charset=utf-8" ∧
       r.IsBase64Encoded = false ∧ r.Body = bs) ∧
    (let r := (ALBResponseWriter.finish defaultRegexp
        (ALBResponseWriter.fresh.Write bs).1).response
     r.StatusCode = 200 ∧
       r.Headers.get? "Content-Type" = some "text/plain; charset=utf-8" ∧
       r.IsBase64Encoded = false ∧ r.Body = bs) := by
  simp [GatewayResponseWriter.finish, GatewayResponseWriter.Write,
    GatewayResponseWriter.WriteHeader, GatewayResponseWriter.fresh,
    ALBResponseWriter.finish, ALBResponseWriter.Write,
    ALBResponseWriter.WriteHeader, ALBResponseWriter.fresh, finalHeaders_nil,
    GoMap.get?, List.lookup, default_matches_textPlain, http.StatusOK]

/-- C7, scenario of the specification: the bytes `[0xFF, 0xD8, 0xFF]`, which are
not valid text, come back unencoded. -/
theorem C7_default_type_means_plain_body_scenario :
    (let r := (GatewayResponseWriter.finish defaultRegexp
        (GatewayResponseWriter.fresh.Write [255, 216, 255]).1).response
     r.StatusCode = 200 ∧
       r.Headers.get? "Content-Type" = some "text/plain; charset=utf-8" ∧
       r.IsBase64Encoded = false ∧ r.Body = [255, 216, 255]) ∧
    (let r := (ALBResponseWriter.finish defaultRegexp
        (ALBResponseWriter.fresh.Write [255, 216, 255]).1).response
     r.StatusCode = 200 ∧
       r.Headers.get? "Content-Type" = some "text/plain; charset=utf-8" ∧
       r.IsBase64Encoded = false ∧ r.Body = [255, 216, 255]) :=
  C7_default_type_means_plain_body [255, 216, 255]

/-- C8: under the default configuration the matcher accepts every default text
family: for every non-empty alphanumeric token `t` and every suffix that is
empty or begins with a non-word character (a parameter suffix such as
`; charset=utf-8`), the content types `text/t`, `application/json`,
`application/t+json`, `application/xml` and `application/t+xml`, followed by
the suffix, are matched. -/
theorem C8_default_families_are_text (t suf : String) (ht : t ≠ "")
    (halnum : t.toList.all Char.isAlphanum = true)
    (hsuf : regexp.isWordAt suf.toList.head? = false) :
    regexp.MatchString defaultRegexp ("text/" ++ t ++ suf) = true ∧
    regexp.MatchString defaultRegexp ("application/json" ++ suf) = true ∧
    regexp.MatchString defaultRegexp ("application/" ++ t ++ "+json" ++ suf) = true ∧
    regexp.MatchString defaultRegexp ("application/xml" ++ suf) = true ∧
    regexp.MatchString defaultRegexp ("application/" ++ t ++ "+xml" ++ suf) = true :=
  ⟨default_matches_text t suf ht halnum hsuf, default_matches_literal_json suf hsuf,
    default_matches_plus_json t suf halnum hsuf, default_matches_literal_xml suf hsuf,
    default_matches_plus_xml t suf halnum hsuf⟩

/-- C8, witness: the token `hal` and the suffix `; charset=utf-8`. -/
theorem C8_default_families_are_text_witness :
    ("hal" ≠ "" ∧ "hal".toList.all Char.isAlphanum = true ∧
      regexp.isWordAt "; charset=utf-8".toList.head? = false) ∧
    (regexp.MatchString defaultRegexp ("text/" ++ "hal" ++ "; charset=utf-8") = true ∧
    regexp.MatchString defaultRegexp ("application/json" ++ "; charset=utf-8") = true ∧
    regexp.MatchString defaultRegexp
      ("application/" ++ "hal" ++ "+json" ++ "; charset=utf-8") = true ∧
    regexp.MatchString defaultRegexp ("application/xml" ++ "; charset=utf-8") = true ∧
    regexp.MatchString defaultRegexp
      ("application/" ++ "hal" ++ "+xml" ++ "; charset=utf-8") = true) :=
  ⟨⟨by decide, by decide, by decide⟩,
    C8_default_families_are_text "hal" "; charset=utf-8" (by decide) (by decide) (by decide)⟩

/-- C9, counterexample: the content type `image/png; note=text/plain` does not
begin with a default pattern, a text type occurs only later in it, and the
default matcher matches it: `finish` leaves the body unencoded. -/
theorem C9_counterexample_text_type_later :
    defaultPatternAt "image/png; note=text/plain".toList = false ∧
      regexp.MatchString defaultRegexp "image/png; note=text/plain" = true ∧
      (GatewayResponseWriter.finish defaultRegexp
        ((GatewayResponseWriter.fresh.mutateHeader
          (fun h => h.set "Content-Type" ["image/png; note=text/plain"])).Write
            [137, 80]).1).response.IsBase64Encoded = false := by
  decide!

/-- C9, amended: the matcher is not anchored: under the default configuration it
does not match a content type in which no default pattern can be read at any
position (`text/`, `application/json`, `application/xml`, or `application/`
with `+json` or `+xml` after it), so `isText` is false there; this covers
`image/png` and `application/octet-stream`. -/
theorem C9_no_pattern_anywhere_is_not_text (ct : String)
    (h : containsDefaultPattern ct = false) :
    regexp.MatchString defaultRegexp ct = false :=
  default_rejects_of_no_pattern ct h

/-- C9, witness: `application/octet-stream` and `image/png` contain no default
pattern and are not matched. -/
theorem C9_no_pattern_anywhere_is_not_text_witness :
    (containsDefaultPattern "application/octet-stream" = false ∧
      regexp.MatchString defaultRegexp "application/octet-stream" = false) ∧
    (containsDefaultPattern "image/png" = false ∧
      regexp.MatchString defaultRegexp "image/png" = false) :=
  ⟨⟨by decide, C9_no_pattern_anywhere_is_not_text "application/octet-stream" (by decide)⟩,
    ⟨by decide, C9_no_pattern_anywhere_is_not_text "image/png" (by decide)⟩⟩

/-- C10: `SetTextContentTypes` called with an empty pattern list does not return
an error: the index expression `types[0]` panics, before `Compile` is called
and so whatever `Compile` is; the package variables are left as they were. -/
theorem C10_empty_list_panics (compile : String → Except regexp.ErrorCode regexp.Regexp)
    (g : Globals) : SetTextContentTypes compile [] g = (.panicked, g) := rfl

/-- C11: reconfiguration is atomic on failure: whatever the library function
`Compile` is, when `SetTextContentTypes`, called with a non-empty pattern list,
returns an error, the package variables (the matcher among them) are exactly
what they were before the call, so every content type is classified as before;
and whenever a call leaves the package variables changed, it returned no
error. -/
theorem C11_failed_reconfiguration_is_atomic
    (compile : String → Except regexp.ErrorCode regexp.Regexp) (types : List String)
    (g : Globals) (err : regexp.ErrorCode) (_hne : types ≠ [])
    (herr : (SetTextContentTypes compile types g).1 = .returned (some err)) :
    (SetTextContentTypes compile types g).2 = g ∧
      (SetTextContentTypes compile types g).2.textContentTypesRegexp =
        g.textContentTypesRegexp ∧
      (∀ contentType : String,
        (SetTextContentTypes compile types g).2.textContentTypesRegexp.map
            (fun re => regexp.MatchString re contentType) =
          g.textContentTypesRegexp.map (fun re => regexp.MatchString re contentType)) ∧
      (∀ (compile₁ : String → Except regexp.ErrorCode regexp.Regexp) (types₁ : List String)
          (g₁ : Globals),
        (SetTextContentTypes compile₁ types₁ g₁).2 ≠ g₁ →
          (SetTextContentTypes compile₁ types₁ g₁).1 = .returned none) := by
  have key : ∀ (compile₁ : String → Except regexp.ErrorCode regexp.Regexp)
      (types₁ : List String) (g₁ : Globals),
      (SetTextContentTypes compile₁ types₁ g₁).2 ≠ g₁ →
        (SetTextContentTypes compile₁ types₁ g₁).1 = .returned none := by
    intro compile₁ types₁ g₁ hch
    unfold SetTextContentTypes at hch ⊢
    cases types₁ with
    | nil => exact absurd rfl hch
    | cons t0 ts =>
      simp only at hch ⊢
      cases hcomp : compile₁ (combinedPattern t0 (t0 :: ts)) with
      | error e => rw [hcomp] at hch; exact absurd rfl hch
      | ok r => rfl
  have hsame : (SetTextContentTypes compile types g).2 = g := by
    by_contra hch
    rw [key compile types g hch] at herr
    exact absurd herr (by simp)
  exact ⟨hsame, by rw [hsame], fun _ => by rw [hsame], key⟩

/-- C11, witness: after `init`, the list `text/.*`, `(json` gives the combined
pattern `(text/.*|text/.*|(json)\b.*`, a pattern of the modelled fragment whose
compilation fails for a missing closing parenthesis; the default matcher stays
installed. -/
theorem C11_failed_reconfiguration_is_atomic_witness :
    (["text/.*", "(json"] ≠ ([] : List String) ∧
      (SetTextContentTypes (regexp.Compile (fun _ => .error .internalError))
        ["text/.*", "(json"] ⟨[], some defaultRegexp⟩).1 =
        .returned (some .missingParen)) ∧
    ((SetTextContentTypes (regexp.Compile (fun _ => .error .internalError))
        ["text/.*", "(json"] ⟨[], some defaultRegexp⟩).2 = ⟨[], some defaultRegexp⟩ ∧
      (SetTextContentTypes (regexp.Compile (fun _ => .error .internalError))
        ["text/.*", "(json"] ⟨[], some defaultRegexp⟩).2.textContentTypesRegexp =
        some defaultRegexp ∧
      (∀ contentType : String,
        (SetTextContentTypes (regexp.Compile (fun _ => .error .internalError))
            ["text/.*", "(json"] ⟨[], some defaultRegexp⟩).2.textContentTypesRegexp.map
            (fun re => regexp.MatchString re contentType) =
          (some defaultRegexp).map (fun re => regexp.MatchString re contentType)) ∧
      (∀ (compile₁ : String → Except regexp.ErrorCode regexp.Regexp) (types₁ : List String)
          (g₁ : Globals),
        (SetTextContentTypes compile₁ types₁ g₁).2 ≠ g₁ →
          (SetTextContentTypes compile₁ types₁ g₁).1 = .returned none)) :=
  ⟨⟨by decide, by decide!⟩,
    C11_failed_reconfiguration_is_atomic (regexp.Compile (fun _ => .error .internalError))
      ["text/.*", "(json"] ⟨[], some defaultRegexp⟩ .missingParen (by decide) (by decide!)⟩

/-- C12: load-balancer status description: on an `ALBResponseWriter` whose headers
are not committed, `WriteHeader(s)` sets `StatusDescription` to the decimal
rendering of `s`, one space and `http.StatusText(s)`, and `finish` keeps it; for
404 this is `404 Not Found`, and the implicit commit of the first `Write` gives
`200 OK`. -/
theorem C12_status_description (re : regexp.Regexp) (w : ALBResponseWriter) (s : Int)
    (bs : List Byte) (h : w.headersWritten = false) :
    (w.WriteHeader s).response.StatusDescription = toString s ++ " " ++ http.StatusText s ∧
      (ALBResponseWriter.finish re (w.WriteHeader s)).response.StatusDescription =
        toString s ++ " " ++ http.StatusText s ∧
      (w.WriteHeader 404).response.StatusDescription = "404 Not Found" ∧
      (w.Write bs).1.response.StatusDescription = "200 OK" ∧
      (ALBResponseWriter.finish re (w.Write bs).1).response.StatusDescription = "200 OK" := by
  have h404 : toString (404 : Int) ++ " " ++ http.StatusText 404 = "404 Not Found" := by decide
  have h200 : toString (200 : Int) ++ " " ++ http.StatusText 200 = "200 OK" := by decide
  simp [ALBResponseWriter.WriteHeader, ALBResponseWriter.Write, ALBResponseWriter.finish, h,
    http.StatusOK, h404, h200]

/-- C12, witness: a fresh load-balancer writer and the status 503. -/
theorem C12_status_description_witness :
    ALBResponseWriter.fresh.headersWritten = false ∧
    ((ALBResponseWriter.fresh.WriteHeader 503).response.StatusDescription =
        toString (503 : Int) ++ " " ++ http.StatusText 503 ∧
      (ALBResponseWriter.finish defaultRegexp
        (ALBResponseWriter.fresh.WriteHeader 503)).response.StatusDescription =
        toString (503 : Int) ++ " " ++ http.StatusText 503 ∧
      (ALBResponseWriter.fresh.WriteHeader 404).response.StatusDescription = "404 Not Found" ∧
      (ALBResponseWriter.fresh.Write [104, 105]).1.response.StatusDescription = "200 OK" ∧
      (ALBResponseWriter.finish defaultRegexp
        (ALBResponseWriter.fresh.Write [104, 105]).1).response.StatusDescription = "200 OK") :=
  ⟨by decide, C12_status_description defaultRegexp ALBResponseWriter.fresh 503 [104, 105]
    (by decide)⟩

/-- C13: header mutations after the commit are ignored: on a writer whose headers
are committed, any sequence of header-table assignments and deletions, `Write`
and `WriteHeader` calls, followed by `finish`, leaves the committed `Headers`
mapping and the `StatusCode` exactly as they were; for both writers. -/
theorem C13_mutations_after_commit_ignored (re : regexp.Regexp) (wg : GatewayResponseWriter)
    (wa : ALBResponseWriter) (ops : List Op)
    (hg : wg.headersWritten = true) (ha : wa.headersWritten = true) :
    ((GatewayResponseWriter.finish re (wg.run ops)).response.Headers = wg.response.Headers ∧
      (GatewayResponseWriter.finish re (wg.run ops)).response.StatusCode =
        wg.response.StatusCode) ∧
    ((ALBResponseWriter.finish re (wa.run ops)).response.Headers = wa.response.Headers ∧
      (ALBResponseWriter.finish re (wa.run ops)).response.StatusCode =
        wa.response.StatusCode) := by
  have h1 := (GatewayResponseWriter.run_of_committed ops wg hg).1
  have h2 := (GatewayResponseWriter.run_of_committed ops wa.toGateway ha).1
  rw [← ALBResponseWriter.toGateway_run] at h2
  have h3 : (wa.run ops).response.Headers = wa.response.Headers :=
    congrArg events.APIGatewayProxyResponse.Headers h2
  have h4 : (wa.run ops).response.StatusCode = wa.response.StatusCode :=
    congrArg events.APIGatewayProxyResponse.StatusCode h2
  simp [GatewayResponseWriter.finish, ALBResponseWriter.finish, h1, h3, h4]

/-- C13, witness: writers committed by `WriteHeader(201)` with `X-A: 1`, then the
calls: assign `X-A`, assign `Content-Type`, delete `X-A`, write, `WriteHeader(500)`. -/
theorem C13_mutations_after_commit_ignored_witness :
    (((GatewayResponseWriter.fresh.mutateHeader (fun h => h.set "X-A" ["1"])).WriteHeader
        201).headersWritten = true ∧
      ((ALBResponseWriter.fresh.mutateHeader (fun h => h.set "X-A" ["1"])).WriteHeader
        201).headersWritten = true) ∧
    (((GatewayResponseWriter.finish defaultRegexp
        (((GatewayResponseWriter.fresh.mutateHeader (fun h => h.set "X-A" ["1"])).WriteHeader
          201).run [Op.setHeader "X-A" ["2"], Op.setHeader "Content-Type" ["image/png"],
            Op.delHeader "X-A", Op.write [104], Op.writeHeader 500])).response.Headers =
        ((GatewayResponseWriter.fresh.mutateHeader (fun h => h.set "X-A" ["1"])).WriteHeader
          201).response.Headers ∧
      (GatewayResponseWriter.finish defaultRegexp
        (((GatewayResponseWriter.fresh.mutateHeader (fun h => h.set "X-A" ["1"])).WriteHeader
          201).run [Op.setHeader "X-A" ["2"], Op.setHeader "Content-Type" ["image/png"],
            Op.delHeader "X-A", Op.write [104], Op.writeHeader 500])).response.StatusCode =
        ((GatewayResponseWriter.fresh.mutateHeader (fun h => h.set "X-A" ["1"])).WriteHeader
          201).response.StatusCode) ∧
    ((ALBResponseWriter.finish defaultRegexp
        (((ALBResponseWriter.fresh.mutateHeader (fun h => h.set "X-A" ["1"])).WriteHeader
          201).run [Op.setHeader "X-A" ["2"], Op.setHeader "Content-Type" ["image/png"],
            Op.delHeader "X-A", Op.write [104], Op.writeHeader 500])).response.Headers =
        ((ALBResponseWriter.fresh.mutateHeader (fun h => h.set "X-A" ["1"])).WriteHeader
          201).response.Headers ∧
      (ALBResponseWriter.finish defaultRegexp
        (((ALBResponseWriter.fresh.mutateHeader (fun h => h.set "X-A" ["1"])).WriteHeader
          201).run [Op.setHeader "X-A" ["2"], Op.setHeader "Content-Type" ["image/png"],
            Op.delHeader "X-A", Op.write [104], Op.writeHeader 500])).response.StatusCode =
        ((ALBResponseWriter.fresh.mutateHeader (fun h => h.set "X-A" ["1"])).WriteHeader
          201).response.StatusCode)) :=
  ⟨⟨by decide, by decide⟩,
    C13_mutations_after_commit_ignored defaultRegexp
      ((GatewayResponseWriter.fresh.mutateHeader (fun h => h.set "X-A" ["1"])).WriteHeader 201)
      ((ALBResponseWriter.fresh.mutateHeader (fun h => h.set "X-A" ["1"])).WriteHeader 201)
      [Op.setHeader "X-A" ["2"], Op.setHeader "Content-Type" ["image/png"],
        Op.delHeader "X-A", Op.write [104], Op.writeHeader 500] (by decide) (by decide)⟩

/-- C14: committed state invariant: in every state reached from a fresh writer in
which the headers are committed, the call sequence has a first committing call
`c`, after the calls `pre`, and the committed `Headers` mapping has a
`Content-Type` entry, which is not empty: it is the last value of `Content-Type`
in the header table left by `pre` when that value is not empty, and
`text/plain; charset=utf-8` when `Content-Type` is absent there, has no value, or
has the empty string as last value; for both writers. -/
theorem C14_committed_content_type (ops : List Op)
    (hg : (GatewayResponseWriter.fresh.run ops).headersWritten = true)
    (_ha : (ALBResponseWriter.fresh.run ops).headersWritten = true) :
    ∃ pre c post, ops = pre ++ c :: post ∧ pre.any Op.commits = false ∧ c.commits = true ∧
      (GatewayResponseWriter.fresh.run ops).response.Headers.get? "Content-Type" =
        some (contentTypeAtCommit ((GatewayResponseWriter.fresh.run pre).headers.getD [])) ∧
      (ALBResponseWriter.fresh.run ops).response.Headers.get? "Content-Type" =
        some (contentTypeAtCommit ((ALBResponseWriter.fresh.run pre).headers.getD [])) ∧
      contentTypeAtCommit ((GatewayResponseWriter.fresh.run pre).headers.getD []) ≠ "" ∧
      contentTypeAtCommit ((ALBResponseWriter.fresh.run pre).headers.getD []) ≠ "" ∧
      (∀ table : http.Header,
        (lastValue table "Content-Type" = none ∨ lastValue table "Content-Type" = some "" →
          contentTypeAtCommit table = "text/plain; charset=utf-8") ∧
        (∀ v, lastValue table "Content-Type" = some v → v ≠ "" →
          contentTypeAtCommit table = v)) := by
  obtain ⟨pre, c, post, he, hpre, hc⟩ := exists_first_commit ops (any_commits_of_committed ops hg)
  have hG := committed_contentType_of_split pre post c hpre hc
  have hA1 : (ALBResponseWriter.fresh.run ops).response.Headers =
      (GatewayResponseWriter.fresh.run ops).response.Headers :=
    congrArg (fun w => w.response.Headers) (toGateway_run_fresh ops)
  have hA2 : (ALBResponseWriter.fresh.run pre).headers =
      (GatewayResponseWriter.fresh.run pre).headers :=
    congrArg GatewayResponseWriter.headers (toGateway_run_fresh pre)
  refine ⟨pre, c, post, he, hpre, hc, ?_, ?_, contentTypeAtCommit_ne_empty _,
    contentTypeAtCommit_ne_empty _, ?_⟩
  · rw [he]; exact hG
  · rw [hA1, hA2, he]; exact hG
  · intro table
    refine ⟨?_, ?_⟩
    · rintro (h | h) <;> simp [contentTypeAtCommit, h]
    · intro v h hv
      simp [contentTypeAtCommit, h, hv]

/-- C14, witness: assign `Content-Type: [text/html, ""]`, assign `X-A`, write,
assign `Content-Type` again: the commit of the `Write` falls back to the
default. -/
theorem C14_committed_content_type_witness :
    ((GatewayResponseWriter.fresh.run
        [Op.setHeader "Content-Type" ["text/html", ""], Op.setHeader "X-A" ["1"],
          Op.write [104], Op.setHeader "Content-Type" ["image/png"]]).headersWritten = true ∧
      (ALBResponseWriter.fresh.run
        [Op.setHeader "Content-Type" ["text/html", ""], Op.setHeader "X-A" ["1"],
          Op.write [104], Op.setHeader "Content-Type" ["image/png"]]).headersWritten = true) ∧
    (∃ pre c post,
      [Op.setHeader "Content-Type" ["text/html", ""], Op.setHeader "X-A" ["1"],
          Op.write [104], Op.setHeader "Content-Type" ["image/png"]] = pre ++ c :: post ∧
      pre.any Op.commits = false ∧ c.commits = true ∧
      (GatewayResponseWriter.fresh.run
        [Op.setHeader "Content-Type" ["text/html", ""], Op.setHeader "X-A" ["1"],
          Op.write [104], Op.setHeader "Content-Type" ["image/png"]]).response.Headers.get?
            "Content-Type" =
        some (contentTypeAtCommit ((GatewayResponseWriter.fresh.run pre).headers.getD [])) ∧
      (ALBResponseWriter.fresh.run
        [Op.setHeader "Content-Type" ["text/html", ""], Op.setHeader "X-A" ["1"],
          Op.write [104], Op.setHeader "Content-Type" ["image/png"]]).response.Headers.get?
            "Content-Type" =
        some (contentTypeAtCommit ((ALBResponseWriter.fresh.run pre).headers.getD [])) ∧
      contentTypeAtCommit ((GatewayResponseWriter.fresh.run pre).headers.getD []) ≠ "" ∧
      contentTypeAtCommit ((ALBResponseWriter.fresh.run pre).headers.getD []) ≠ "" ∧
      (∀ table : http.Header,
        (lastValue table "Content-Type" = none ∨ lastValue table "Content-Type" = some "" →
          contentTypeAtCommit table = "text/plain; charset=utf-8") ∧
        (∀ v, lastValue table "Content-Type" = some v → v ≠ "" →
          contentTypeAtCommit table = v))) :=
  ⟨⟨by decide, by decide⟩,
    C14_committed_content_type
      [Op.setHeader "Content-Type" ["text/html", ""], Op.setHeader "X-A" ["1"],
        Op.write [104], Op.setHeader "Content-Type" ["image/png"]] (by decide) (by decide)⟩

/-- C15: `Write` is total and append-only: for every writer state and byte slice
`bs`, `Write(bs)` returns `len(bs)` and no error, the buffer afterwards is the
previous buffer followed by `bs`, and on a writer whose headers are committed
nothing else changes (the response, and with it `StatusCode`, `Headers` and
`StatusDescription`, the header table and the commit flag); hence after any
sequence of writes the buffer is the previous buffer followed by the chunks in
call order; for both writers. -/
theorem C15_Write_appends (wg : GatewayResponseWriter) (wa : ALBResponseWriter)
    (bs : List Byte) (chunks : List (List Byte)) :
    ((wg.Write bs).2 = (bs.length, none) ∧ (wg.Write bs).1.output = wg.output ++ bs ∧
      (wg.headersWritten = true → (wg.Write bs).1 = { wg with output := wg.output ++ bs }) ∧
      (wg.writeAll chunks).output = wg.output ++ chunks.flatten) ∧
    ((wa.Write bs).2 = (bs.length, none) ∧ (wa.Write bs).1.output = wa.output ++ bs ∧
      (wa.headersWritten = true → (wa.Write bs).1 = { wa with output := wa.output ++ bs }) ∧
      (wa.writeAll chunks).output = wa.output ++ chunks.flatten) := by
  have hG : ∀ w : GatewayResponseWriter, (w.Write bs).1.output = w.output ++ bs := by
    intro w
    unfold GatewayResponseWriter.Write
    by_cases hw : w.headersWritten = true
    · simp [hw]
    · simp [hw, GatewayResponseWriter.output_WriteHeader]
  have hA : ∀ w : ALBResponseWriter, (w.Write bs).1.output = w.output ++ bs := by
    intro w
    unfold ALBResponseWriter.Write
    by_cases hw : w.headersWritten = true
    · simp [hw]
    · simp [hw, ALBResponseWriter.output_WriteHeader_alb]
  have hGall : (wg.writeAll chunks).output = wg.output ++ chunks.flatten := by
    cases chunks with
    | nil => simp [GatewayResponseWriter.writeAll]
    | cons c cs =>
      by_cases hw : wg.headersWritten = true
      · rw [GatewayResponseWriter.writeAll_of_committed _ _ hw]
      · rw [GatewayResponseWriter.writeAll_cons_of_fresh _ _ _ (by simpa using hw)]
  have hAall : (wa.writeAll chunks).output = wa.output ++ chunks.flatten := by
    cases chunks with
    | nil => simp [ALBResponseWriter.writeAll]
    | cons c cs =>
      by_cases hw : wa.headersWritten = true
      · rw [ALBResponseWriter.writeAll_of_committed_alb _ _ hw]
      · rw [ALBResponseWriter.writeAll_cons_of_fresh_alb _ _ _ (by simpa using hw)]
  exact ⟨⟨rfl, hG wg, GatewayResponseWriter.Write_of_committed wg bs, hGall⟩,
    ⟨rfl, hA wa, ALBResponseWriter.Write_of_committed_alb wa bs, hAall⟩⟩

/-- C15, witness: on writers committed by `WriteHeader(404)`, `Write` of two bytes
changes the buffer only. -/
theorem C15_Write_appends_witness :
    ((GatewayResponseWriter.fresh.WriteHeader 404).headersWritten = true ∧
      (ALBResponseWriter.fresh.WriteHeader 404).headersWritten = true) ∧
    (((GatewayResponseWriter.fresh.WriteHeader 404).Write [104, 105]).1 =
        { GatewayResponseWriter.fresh.WriteHeader 404 with
          output := (GatewayResponseWriter.fresh.WriteHeader 404).output ++ [104, 105] } ∧
      ((ALBResponseWriter.fresh.WriteHeader 404).Write [104, 105]).1 =
        { ALBResponseWriter.fresh.WriteHeader 404 with
          output := (ALBResponseWriter.fresh.WriteHeader 404).output ++ [104, 105] }) :=
  ⟨⟨by decide, by decide⟩,
    ⟨(C15_Write_appends (GatewayResponseWriter.fresh.WriteHeader 404)
        (ALBResponseWriter.fresh.WriteHeader 404) [104, 105] []).1.2.2.1 (by decide),
      (C15_Write_appends (GatewayResponseWriter.fresh.WriteHeader 404)
        (ALBResponseWriter.fresh.WriteHeader 404) [104, 105] []).2.2.2.1 (by decide)⟩⟩

/-- C16: the two writers are observationally equivalent on their shared fields: for
every matcher and every sequence of header-table mutations, `Write` and
`WriteHeader` calls on fresh writers, followed by `finish`, the gateway response
and the load-balancer response have the same `StatusCode`, `Headers`, `Body`
and `IsBase64Encoded`. -/
theorem C16_writers_agree_on_shared_fields (re : regexp.Regexp) (ops : List Op) :
    (ALBResponseWriter.finish re (ALBResponseWriter.fresh.run ops)).response.StatusCode =
        (GatewayResponseWriter.finish re
          (GatewayResponseWriter.fresh.run ops)).response.StatusCode ∧
      (ALBResponseWriter.finish re (ALBResponseWriter.fresh.run ops)).response.Headers =
        (GatewayResponseWriter.finish re
          (GatewayResponseWriter.fresh.run ops)).response.Headers ∧
      (ALBResponseWriter.finish re (ALBResponseWriter.fresh.run ops)).response.Body =
        (GatewayResponseWriter.finish re
          (GatewayResponseWriter.fresh.run ops)).response.Body ∧
      (ALBResponseWriter.finish re (ALBResponseWriter.fresh.run ops)).response.IsBase64Encoded =
        (GatewayResponseWriter.finish re
          (GatewayResponseWriter.fresh.run ops)).response.IsBase64Encoded := by
  have h : (ALBResponseWriter.finish re (ALBResponseWriter.fresh.run ops)).toGateway =
      GatewayResponseWriter.finish re (GatewayResponseWriter.fresh.run ops) := by
    rw [ALBResponseWriter.toGateway_finish, toGateway_run_fresh]
  exact ⟨congrArg (fun w => w.response.StatusCode) h,
    congrArg (fun w => w.response.Headers) h,
    congrArg (fun w => w.response.Body) h,
    congrArg (fun w => w.response.IsBase64Encoded) h⟩

/-- C16, scenario: under the default configuration, the calls assign `X-A`, assign
`Content-Type: image/png`, `WriteHeader(202)`, write two bytes give, on both
writers, status 202, the two committed headers, the flag set and the body `aGk=`. -/
theorem C16_writers_agree_on_shared_fields_scenario :
    ((ALBResponseWriter.finish defaultRegexp (ALBResponseWriter.fresh.run
        [Op.setHeader "X-A" ["1"], Op.setHeader "Content-Type" ["image/png"],
          Op.writeHeader 202, Op.write [104, 105]])).response.StatusCode =
        (GatewayResponseWriter.finish defaultRegexp (GatewayResponseWriter.fresh.run
          [Op.setHeader "X-A" ["1"], Op.setHeader "Content-Type" ["image/png"],
            Op.writeHeader 202, Op.write [104, 105]])).response.StatusCode ∧
      (ALBResponseWriter.finish defaultRegexp (ALBResponseWriter.fresh.run
        [Op.setHeader "X-A" ["1"], Op.setHeader "Content-Type" ["image/png"],
          Op.writeHeader 202, Op.write [104, 105]])).response.Headers =
        (GatewayResponseWriter.finish defaultRegexp (GatewayResponseWriter.fresh.run
          [Op.setHeader "X-A" ["1"], Op.setHeader "Content-Type" ["image/png"],
            Op.writeHeader 202, Op.write [104, 105]])).response.Headers ∧
      (ALBResponseWriter.finish defaultRegexp (ALBResponseWriter.fresh.run
        [Op.setHeader "X-A" ["1"], Op.setHeader "Content-Type" ["image/png"],
          Op.writeHeader 202, Op.write [104, 105]])).response.Body =
        (GatewayResponseWriter.finish defaultRegexp (GatewayResponseWriter.fresh.run
          [Op.setHeader "X-A" ["1"], Op.setHeader "Content-Type" ["image/png"],
            Op.writeHeader 202, Op.write [104, 105]])).response.Body ∧
      (ALBResponseWriter.finish defaultRegexp (ALBResponseWriter.fresh.run
        [Op.setHeader "X-A" ["1"], Op.setHeader "Content-Type" ["image/png"],
          Op.writeHeader 202, Op.write [104, 105]])).response.IsBase64Encoded =
        (GatewayResponseWriter.finish defaultRegexp (GatewayResponseWriter.fresh.run
          [Op.setHeader "X-A" ["1"], Op.setHeader "Content-Type" ["image/png"],
            Op.writeHeader 202, Op.write [104, 105]])).response.IsBase64Encoded) ∧
    (GatewayResponseWriter.finish defaultRegexp (GatewayResponseWriter.fresh.run
      [Op.setHeader "X-A" ["1"], Op.setHeader "Content-Type" ["image/png"],
        Op.writeHeader 202, Op.write [104, 105]])).response =
      { StatusCode := 202, Headers := [("X-A", "1"), ("Content-Type", "image/png")],
        MultiValueHeaders := [], Body := asciiBytes "aGk=", IsBase64Encoded := true } :=
  ⟨C16_writers_agree_on_shared_fields defaultRegexp
    [Op.setHeader "X-A" ["1"], Op.setHeader "Content-Type" ["image/png"],
      Op.writeHeader 202, Op.write [104, 105]], by decide!⟩

/-- C17: finishing a writer on which neither `Write` nor `WriteHeader` was called,
under the default configuration: whatever the header table holds (any table, or
the table left by any sequence of header mutations), `finish` gives
`StatusCode = 0`, a `Headers` mapping without entries, `IsBase64Encoded = true`
and an empty body; the content type looked up is the empty string, which the
default matcher does not accept; for both writers. -/
theorem C17_finish_without_commit (table : Option http.Header) (ops : List Op)
    (hops : ops.any Op.commits = false) :
    ((GatewayResponseWriter.finish defaultRegexp
        { GatewayResponseWriter.fresh with headers := table }).response =
        { StatusCode := 0, Headers := [], MultiValueHeaders := [], Body := [],
          IsBase64Encoded := true } ∧
      (ALBResponseWriter.finish defaultRegexp
        { ALBResponseWriter.fresh with headers := table }).response =
        { StatusCode := 0, StatusDescription := "", Headers := [], MultiValueHeaders := [],
          Body := [], IsBase64Encoded := true }) ∧
    ((GatewayResponseWriter.finish defaultRegexp
        (GatewayResponseWriter.fresh.run ops)).response =
        { StatusCode := 0, Headers := [], MultiValueHeaders := [], Body := [],
          IsBase64Encoded := true } ∧
      (ALBResponseWriter.finish defaultRegexp (ALBResponseWriter.fresh.run ops)).response =
        { StatusCode := 0, StatusDescription := "", Headers := [], MultiValueHeaders := [],
          Body := [], IsBase64Encoded := true }) ∧
    ((GoMap.get? ([] : GoMap String) "Content-Type").getD "" = "" ∧
      regexp.MatchString defaultRegexp "" = false) := by
  have hE : base64.EncodeToString [] = [] := rfl
  obtain ⟨g1, g2, _⟩ := GatewayResponseWriter.run_of_not_commits ops
    GatewayResponseWriter.fresh hops
  have g1' : (GatewayResponseWriter.fresh.run ops).response =
      { StatusCode := 0, Headers := [], MultiValueHeaders := [], Body := [],
        IsBase64Encoded := false } := g1
  have g2' : (GatewayResponseWriter.fresh.run ops).output = [] := g2
  have hsim := toGateway_run_fresh ops
  have a2 : (ALBResponseWriter.fresh.run ops).output = [] := by
    have : (ALBResponseWriter.fresh.run ops).output =
        (GatewayResponseWriter.fresh.run ops).output :=
      congrArg GatewayResponseWriter.output hsim
    rw [this, g2]; rfl
  have aS : (ALBResponseWriter.fresh.run ops).response.StatusCode = 0 := by
    have : (ALBResponseWriter.fresh.run ops).response.StatusCode =
        (GatewayResponseWriter.fresh.run ops).response.StatusCode :=
      congrArg (fun w => w.response.StatusCode) hsim
    rw [this, g1]; rfl
  have aH : (ALBResponseWriter.fresh.run ops).response.Headers = [] := by
    have : (ALBResponseWriter.fresh.run ops).response.Headers =
        (GatewayResponseWriter.fresh.run ops).response.Headers :=
      congrArg (fun w => w.response.Headers) hsim
    rw [this, g1]; rfl
  have aM : (ALBResponseWriter.fresh.run ops).response.MultiValueHeaders = [] := by
    have : (ALBResponseWriter.fresh.run ops).response.MultiValueHeaders =
        (GatewayResponseWriter.fresh.run ops).response.MultiValueHeaders :=
      congrArg (fun w => w.response.MultiValueHeaders) hsim
    rw [this, g1]; rfl
  have aD : (ALBResponseWriter.fresh.run ops).response.StatusDescription = "" := by
    have key : ∀ (l : List Op) (w : ALBResponseWriter), l.any Op.commits = false →
        (w.run l).response.StatusDescription = w.response.StatusDescription := by
      intro l
      induction l with
      | nil => intro w _; rfl
      | cons op l ih =>
        intro w hl
        simp only [List.any_cons, Bool.or_eq_false_iff] at hl
        have h1 : w.run (op :: l) = (w.step op).run l := rfl
        rw [h1, ih (w.step op) hl.2]
        cases op with
        | setHeader k vs => simp [ALBResponseWriter.step, ALBResponseWriter.mutateHeader_eq_alb]
        | delHeader k => simp [ALBResponseWriter.step, ALBResponseWriter.mutateHeader_eq_alb]
        | write bs => simp [Op.commits] at hl
        | writeHeader s => simp [Op.commits] at hl
    rw [key ops _ hops]; rfl
  refine ⟨⟨?_, ?_⟩, ⟨?_, ?_⟩, rfl, default_rejects_empty⟩
  · simp [GatewayResponseWriter.finish, GatewayResponseWriter.fresh, GoMap.get?_nil,
      default_rejects_empty, hE]
  · simp [ALBResponseWriter.finish, ALBResponseWriter.fresh, GoMap.get?_nil,
      default_rejects_empty, hE]
  · simp [GatewayResponseWriter.finish, g1', g2', GoMap.get?_nil, default_rejects_empty, hE]
  · simp [ALBResponseWriter.finish, a2, aS, aH, aM, aD, GoMap.get?_nil,
      default_rejects_empty, hE]

/-- C17, witness: the header mutations assign `Content-Type: image/png`, assign
`X-A`, delete `X-A`, and the table `{Content-Type: [application/json]}`. -/
theorem C17_finish_without_commit_witness :
    ([Op.setHeader "Content-Type" ["image/png"], Op.setHeader "X-A" ["1"],
        Op.delHeader "X-A"].any Op.commits = false) ∧
    (((GatewayResponseWriter.finish defaultRegexp
        { GatewayResponseWriter.fresh with
          headers := some [("Content-Type", ["application/json"])] }).response =
        { StatusCode := 0, Headers := [], MultiValueHeaders := [], Body := [],
          IsBase64Encoded := true } ∧
      (ALBResponseWriter.finish defaultRegexp
        { ALBResponseWriter.fresh with
          headers := some [("Content-Type", ["application/json"])] }).response =
        { StatusCode := 0, StatusDescription := "", Headers := [], MultiValueHeaders := [],
          Body := [], IsBase64Encoded := true }) ∧
    ((GatewayResponseWriter.finish defaultRegexp
        (GatewayResponseWriter.fresh.run
          [Op.setHeader "Content-Type" ["image/png"], Op.setHeader "X-A" ["1"],
            Op.delHeader "X-A"])).response =
        { StatusCode := 0, Headers := [], MultiValueHeaders := [], Body := [],
          IsBase64Encoded := true } ∧
      (ALBResponseWriter.finish defaultRegexp
        (ALBResponseWriter.fresh.run
          [Op.setHeader "Content-Type" ["image/png"], Op.setHeader "X-A" ["1"],
            Op.delHeader "X-A"])).response =
        { StatusCode := 0, StatusDescription := "", Headers := [], MultiValueHeaders := [],
          Body := [], IsBase64Encoded := true }) ∧
    ((GoMap.get? ([] : GoMap String) "Content-Type").getD "" = "" ∧
      regexp.MatchString defaultRegexp "" = false)) :=
  ⟨by decide,
    C17_finish_without_commit (some [("Content-Type", ["application/json"])])
      [Op.setHeader "Content-Type" ["image/png"], Op.setHeader "X-A" ["1"],
        Op.delHeader "X-A"] (by decide)⟩

/-- C18: `finish` writes `Body` and `IsBase64Encoded` only, and is idempotent: for
every writer state and matcher, `finish` leaves `StatusCode`, `Headers`,
`MultiValueHeaders`, `StatusDescription`, the header table, the buffer and the
commit flag unchanged, and a second `finish` with the same matcher returns
exactly the state, and so the response, of the first; for both writers. -/
theorem C18_finish_frame_and_idempotent (re : regexp.Regexp) (wg : GatewayResponseWriter)
    (wa : ALBResponseWriter) :
    ((GatewayResponseWriter.finish re wg).response.StatusCode = wg.response.StatusCode ∧
      (GatewayResponseWriter.finish re wg).response.Headers = wg.response.Headers ∧
      (GatewayResponseWriter.finish re wg).response.MultiValueHeaders =
        wg.response.MultiValueHeaders ∧
      (GatewayResponseWriter.finish re wg).headers = wg.headers ∧
      (GatewayResponseWriter.finish re wg).output = wg.output ∧
      (GatewayResponseWriter.finish re wg).headersWritten = wg.headersWritten ∧
      GatewayResponseWriter.finish re (GatewayResponseWriter.finish re wg) =
        GatewayResponseWriter.finish re wg) ∧
    ((ALBResponseWriter.finish re wa).response.StatusCode = wa.response.StatusCode ∧
      (ALBResponseWriter.finish re wa).response.StatusDescription =
        wa.response.StatusDescription ∧
      (ALBResponseWriter.finish re wa).response.Headers = wa.response.Headers ∧
      (ALBResponseWriter.finish re wa).response.MultiValueHeaders =
        wa.response.MultiValueHeaders ∧
      (ALBResponseWriter.finish re wa).headers = wa.headers ∧
      (ALBResponseWriter.finish re wa).output = wa.output ∧
      (ALBResponseWriter.finish re wa).headersWritten = wa.headersWritten ∧
      ALBResponseWriter.finish re (ALBResponseWriter.finish re wa) =
        ALBResponseWriter.finish re wa) := by
  refine ⟨⟨rfl, rfl, rfl, rfl, rfl, rfl, ?_⟩, ⟨rfl, rfl, rfl, rfl, rfl, rfl, rfl, ?_⟩⟩
  · simp [GatewayResponseWriter.finish]
  · simp [ALBResponseWriter.finish]

end Pylon
